import Mathlib

/-!
# openstorage: `api` derived computations and the `alert` facade

A shallow embedding of `api/api.go` (enum codec, `Stats` metrics, `Volume`
predicates, `VolumeSpec.Copy`) and `alert/alert_client.go` (the alert
facade), followed by the properties proved about them.

Conventions of the embedding:

* Go `uint64` values are natural numbers; every operation that can overflow
  is reduced modulo `2 ^ 64` explicitly, and integer division by zero (a
  run-time panic in Go) is the `none` result of `div64`.
* Go strings are Lean strings, read as sequences of code points.
* `strings.ToUpper` and `strings.ToLower` belong to the Go standard library;
  they map every code point through a case table.  The table is a parameter
  (`CaseMap`) of the codec functions; `asciiCase` is its restriction to ASCII
  text, used to evaluate the codec on concrete ASCII inputs.
* A Go map is an association list with distinct keys (`GoMap`).
-/

namespace OpenStorage

/-! ## Machine integers -/

/-- The modulus of `uint64` arithmetic. -/
def U64 : Nat := 2 ^ 64

/-- Wrapping `uint64` addition. -/
def add64 (a b : Nat) : Nat := (a + b) % U64

/-- Wrapping `uint64` multiplication. -/
def mul64 (a b : Nat) : Nat := (a * b) % U64

/-- Unsigned `uint64` division; Go panics when the divisor is zero, which is
the `none` result. -/
def div64 (a b : Nat) : Option Nat := if b = 0 then none else some (a / b)

/-! ## Stats -/

/-- The raw interval counters of `Stats`; every field is a `uint64`. -/
structure Stats where
  Reads : Nat
  ReadMs : Nat
  ReadBytes : Nat
  Writes : Nat
  WriteMs : Nat
  WriteBytes : Nat
  IoMs : Nat
  IntervalMs : Nat
deriving DecidableEq

/-- The function `toSec`: milliseconds to whole seconds. -/
def toSec (ms : Nat) : Nat := ms / 1000

/-- The method `Stats.WriteThroughput`. -/
def Stats.WriteThroughput (v : Stats) : Option Nat :=
  let intv := toSec v.IntervalMs
  if intv = 0 then some 0 else div64 v.WriteBytes intv

/-- The method `Stats.ReadThroughput`. -/
def Stats.ReadThroughput (v : Stats) : Option Nat :=
  let intv := toSec v.IntervalMs
  if intv = 0 then some 0 else div64 v.ReadBytes intv

/-- The method `Stats.Latency`. -/
def Stats.Latency (v : Stats) : Option Nat :=
  let ops := add64 v.Writes v.Reads
  if ops = 0 then some 0 else div64 (mul64 v.IoMs 1000) ops

/-- The method `Stats.ReadLatency`. -/
def Stats.ReadLatency (v : Stats) : Option Nat :=
  if v.Reads = 0 then some 0 else div64 (mul64 v.ReadMs 1000) v.Reads

/-- The method `Stats.WriteLatency`. -/
def Stats.WriteLatency (v : Stats) : Option Nat :=
  if v.Writes = 0 then some 0 else div64 (mul64 v.WriteMs 1000) v.Writes

/-- The method `Stats.Iops`. -/
def Stats.Iops (v : Stats) : Option Nat :=
  let intv := toSec v.IntervalMs
  if intv = 0 then some 0 else div64 (add64 v.Writes v.Reads) intv

/-! ## Strings and the enum codec -/

/-- The case tables behind `strings.ToUpper` and `strings.ToLower`
(`unicode.ToUpper`, `unicode.ToLower`), one code point at a time. -/
structure CaseMap where
  upper : Char → Char
  lower : Char → Char

/-- The case tables restricted to ASCII: only `a`-`z` and `A`-`Z` move. -/
def asciiCase : CaseMap := ⟨Char.toUpper, Char.toLower⟩

/-- The function `strings.ToUpper`. -/
def toUpper (cm : CaseMap) (s : String) : String := ⟨s.data.map cm.upper⟩

/-- The function `strings.ToLower`. -/
def toLower (cm : CaseMap) (s : String) : String := ⟨s.data.map cm.lower⟩

/-- The function `strings.TrimPrefix`: `s` without the leading `pre`, or `s`
itself when it does not start with `pre`. -/
def trimPrefix (s pre : String) : String :=
  if pre.data.isPrefixOf s.data then ⟨s.data.drop pre.data.length⟩ else s

/-- The function `strconv.Itoa`: decimal digits, with a minus sign for a
negative number. -/
def itoa (v : Int) : String := toString v

/-- A Go `error` value: `none` is `nil`, `some msg` an error with that
message. -/
abbrev GoError := Option String

/-- A Go map: an association list with pairwise distinct keys. -/
abbrev GoMap (κ ν : Type) := AList (fun _ : κ => ν)

/-- The function `simpleValueOf`. -/
def simpleValueOf (cm : CaseMap) (typeString : String) (valueMap : GoMap String Int)
    (s : String) : Int × GoError :=
  match valueMap.lookup (toUpper cm (typeString ++ "_" ++ s)) with
  | none => (0, some ("no openstorage." ++ toUpper cm typeString ++ " for " ++ s))
  | some obj => (obj, none)

/-- The function `simpleString`. -/
def simpleString (cm : CaseMap) (typeString : String) (nameMap : GoMap Int String)
    (v : Int) : String :=
  match nameMap.lookup v with
  | none => itoa v
  | some s => trimPrefix (toLower cm s) (toLower cm typeString ++ "_")

/-- The function `IoProfileSimpleValueOf`; the generated table
`IoProfile_value` is a parameter. -/
def IoProfileSimpleValueOf (cm : CaseMap) (IoProfile_value : GoMap String Int)
    (s : String) : Int × GoError :=
  simpleValueOf cm "io_profile" IoProfile_value s

/-- The method `IoProfile.SimpleString`; the generated table `IoProfile_name`
is a parameter. -/
def IoProfile.SimpleString (cm : CaseMap) (IoProfile_name : GoMap Int String)
    (x : Int) : String :=
  simpleString cm "io_profile" IoProfile_name x

/-- The function `CosTypeSimpleValueOf`; the generated table `CosType_value`
is a parameter. -/
def CosTypeSimpleValueOf (cm : CaseMap) (CosType_value : GoMap String Int)
    (s : String) : Int × GoError :=
  match CosType_value.lookup (toUpper cm s) with
  | none => (-1, some ("Invalid cos value: " ++ s))
  | some obj => (obj, none)

/-- The method `CosType.SimpleString`; the generated table `CosType_name` is a
parameter. -/
def CosType.SimpleString (cm : CaseMap) (CosType_name : GoMap Int String)
    (x : Int) : String :=
  simpleString cm "cos_type" CosType_name x

/-! ## Volume -/

/-- The parent reference of a volume (`Source`); its declaration is generated
code, of which the methods below read `Parent`. -/
structure Source where
  Parent : String
deriving DecidableEq

/-- The display name of a volume (`VolumeLocator`), of which `DisplayId` reads
`Name`. -/
structure VolumeLocator where
  Name : String
deriving DecidableEq

/-- A replica set read as a value: the ordered node ids. -/
structure ReplicaSet where
  Nodes : List String
deriving DecidableEq

/-- The fields of `Volume` that the methods of `api.go` read.  A `nil`
pointer is `none`: `Locator` and `Source` are pointers, and `ReplicaSets` is a
slice of pointers, each of which may be `nil`. -/
structure Volume where
  Id : String
  Locator : Option VolumeLocator
  Source : Option Source
  Readonly : Bool
  ReplicaSets : List (Option ReplicaSet)
deriving DecidableEq

/-- Modelled from the spec: the generated getter `GetReplicaSets`, which is
not part of `api.go`, returns the replica sets the volume reports. -/
def Volume.GetReplicaSets (m : Volume) : List (Option ReplicaSet) := m.ReplicaSets

/-- The inner loop of `Volume.Contains`: scan the nodes of one replica set. -/
def containsNode : List String → String → Bool
  | [], _ => false
  | node :: rest, mid => if node = mid then true else containsNode rest mid

/-- The outer loop of `Volume.Contains`: scan the replica sets in order.  The
loop reads `rset.Nodes` with no check of the pointer, so a `nil` element that
the scan reaches panics (`none`). -/
def containsRsets : List (Option ReplicaSet) → String → Option Bool
  | [], _ => some false
  | none :: _, _ => none
  | some rset :: rest, mid =>
    if containsNode rset.Nodes mid then some true else containsRsets rest mid

/-- The method `Volume.Contains`; `none` is the panic of a `nil` pointer
dereference. -/
def Volume.Contains (m : Volume) (mid : String) : Option Bool :=
  containsRsets m.GetReplicaSets mid

/-- The Go builtin `len` on a string: its length in bytes. -/
def strLen (s : String) : Nat := s.utf8ByteSize

/-- The method `Volume.IsClone`. -/
def Volume.IsClone (v : Volume) : Bool :=
  match v.Source with
  | none => false
  | some src => strLen src.Parent != 0 && !v.Readonly

/-- The method `Volume.IsSnapshot`. -/
def Volume.IsSnapshot (v : Volume) : Bool :=
  match v.Source with
  | none => false
  | some src => strLen src.Parent != 0 && v.Readonly

/-- The method `Volume.DisplayId`. -/
def Volume.DisplayId (v : Volume) : String :=
  match v.Locator with
  | some loc => loc.Name ++ " (" ++ v.Id ++ ")"
  | none => v.Id

/-! ## VolumeSpec.Copy over an explicit heap

`Copy` is about sharing: maps, slices and the `ReplicaSet` behind a pointer
are heap objects, and a `VolumeSpec` holds references to them.  The heap is
passed explicitly; an address is an index into the list of objects of its
kind, and allocation appends to that list.
-/

/-- A Go slice of strings: `nil`, or a window (`off`, `len`) into the backing
array at address `arr`. -/
inductive Slice where
  | nil
  | mk (arr off len : Nat)
deriving DecidableEq

/-- The Go builtin `len` on a slice. -/
def Slice.len : Slice → Nat
  | .nil => 0
  | .mk _ _ n => n

/-- The struct `ReplicaSet` as it is stored: its `Nodes` field is a slice. -/
structure ReplicaSetCell where
  Nodes : Slice
deriving DecidableEq

/-- The heap: map objects, `ReplicaSet` structs and backing arrays. -/
structure Heap where
  maps : List (GoMap String String)
  rsets : List ReplicaSetCell
  arrays : List (List String)

/-- The struct `VolumeSpec`.  `VolumeLabels` is a map reference and
`ReplicaSet` a pointer (`none` is `nil`); `scalars` stands for all the other
fields, whose declaration is generated code and which `Copy` only carries
over by the struct assignment. -/
structure VolumeSpec (σ : Type) where
  scalars : σ
  VolumeLabels : Option Nat
  ReplicaSet : Option Nat

/-- The map object at an address. -/
def Heap.readMap (h : Heap) (a : Nat) : GoMap String String := (h.maps[a]?).getD ∅

/-- The `ReplicaSet` struct behind a pointer. -/
def Heap.readRset (h : Heap) (p : Nat) : ReplicaSetCell := (h.rsets[p]?).getD ⟨.nil⟩

/-- The elements of a slice, in order. -/
def Heap.readSlice (h : Heap) : Slice → List String
  | .nil => []
  | .mk a off len => (((h.arrays[a]?).getD []).drop off).take len

/-- The expression `make(map[string]string)`: a fresh, empty map object. -/
def Heap.makeMap (h : Heap) : Nat × Heap :=
  (h.maps.length, { h with maps := h.maps ++ [∅] })

/-- The statement `m[k] = v` on the map object at address `a`. -/
def Heap.mapAssign (h : Heap) (a : Nat) (k v : String) : Heap :=
  { h with maps := h.maps.set a ((h.readMap a).insert k v) }

/-- The statement `delete(m, k)` on the map object at address `a`. -/
def Heap.mapDelete (h : Heap) (a : Nat) (k : String) : Heap :=
  { h with maps := h.maps.set a ((h.readMap a).erase k) }

/-- The expression `make([]string, n)`: a slice over a fresh array of `n`
empty strings. -/
def Heap.makeSlice (h : Heap) (n : Nat) : Slice × Heap :=
  (.mk h.arrays.length 0 n, { h with arrays := h.arrays ++ [List.replicate n ""] })

/-- The expression `&ReplicaSet{...}`: a fresh struct holding `r`. -/
def Heap.newRset (h : Heap) (r : ReplicaSetCell) : Nat × Heap :=
  (h.rsets.length, { h with rsets := h.rsets ++ [r] })

/-- The Go builtin `copy(dst, src)`: the first `min (len dst) (len src)`
elements of `src` overwrite the start of `dst`. -/
def Heap.copy (h : Heap) (dst src : Slice) : Heap :=
  match dst with
  | .nil => h
  | .mk a off len =>
    let xs := (h.readSlice src).take len
    let old := (h.arrays[a]?).getD []
    { h with arrays := h.arrays.set a (old.take off ++ xs ++ old.drop (off + xs.length)) }

/-- The statement `sl[i] = x`; an index out of range panics (`none`). -/
def Heap.sliceSet (h : Heap) (sl : Slice) (i : Nat) (x : String) : Option Heap :=
  match sl with
  | .nil => none
  | .mk a off len =>
    if i < len then
      some { h with arrays := h.arrays.set a (((h.arrays[a]?).getD []).set (off + i) x) }
    else none

/-- The loop `for k, v := range src { dst[k] = v }`, over the entries of the
source map in the order the iteration yields them. -/
def copyLabels (h : Heap) (dst : Nat) (entries : List (Sigma fun _ : String => String)) : Heap :=
  entries.foldl (fun h e => h.mapAssign dst e.1 e.2) h

/-- The method `VolumeSpec.Copy`; the result is the new struct and the heap
after the call. -/
def VolumeSpec.Copy {σ : Type} (h : Heap) (s : VolumeSpec σ) : VolumeSpec σ × Heap :=
  let spec := s
  let (spec, h) :=
    match s.VolumeLabels with
    | some src =>
      let (dst, h) := h.makeMap
      let spec := { spec with VolumeLabels := some dst }
      (spec, copyLabels h dst (h.readMap src).entries)
    | none => (spec, h)
  match s.ReplicaSet with
  | some p =>
    let (nodes, h) := h.makeSlice (h.readRset p).Nodes.len
    let (q, h) := h.newRset ⟨nodes⟩
    let spec := { spec with ReplicaSet := some q }
    (spec, h.copy (h.readRset q).Nodes (h.readRset p).Nodes)
  | none => (spec, h)

/-- The statement `s.VolumeLabels[k] = v`; assignment to a `nil` map panics
(`none`). -/
def VolumeSpec.setLabel {σ : Type} (h : Heap) (s : VolumeSpec σ) (k v : String) : Option Heap :=
  match s.VolumeLabels with
  | none => none
  | some a => some (h.mapAssign a k v)

/-- The statement `delete(s.VolumeLabels, k)`; a no-op on a `nil` map. -/
def VolumeSpec.deleteLabel {σ : Type} (h : Heap) (s : VolumeSpec σ) (k : String) : Heap :=
  match s.VolumeLabels with
  | none => h
  | some a => h.mapDelete a k

/-- The statement `s.ReplicaSet.Nodes[i] = x`; a `nil` pointer or an index
out of range panics (`none`). -/
def VolumeSpec.setNode {σ : Type} (h : Heap) (s : VolumeSpec σ) (i : Nat) (x : String) :
    Option Heap :=
  match s.ReplicaSet with
  | none => none
  | some p => h.sliceSet (h.readRset p).Nodes i x

/-- The content of `s.VolumeLabels`: `none` for a `nil` map. -/
def VolumeSpec.labels {σ : Type} (h : Heap) (s : VolumeSpec σ) : Option (GoMap String String) :=
  s.VolumeLabels.map h.readMap

/-- The content of `s.ReplicaSet`: `none` for a `nil` pointer, else the
struct with its `Nodes` read as a sequence. -/
def VolumeSpec.replicaSet {σ : Type} (h : Heap) (s : VolumeSpec σ) :
    Option OpenStorage.ReplicaSet :=
  s.ReplicaSet.map fun p => ⟨h.readSlice (h.readRset p).Nodes⟩

/-- A slice lies within an allocated array. -/
def Heap.validSlice (h : Heap) : Slice → Prop
  | .nil => True
  | .mk a off len => a < h.arrays.length ∧ off + len ≤ ((h.arrays[a]?).getD []).length

/-- Every reference held by `s` points to an allocated object of the heap. -/
def VolumeSpec.valid {σ : Type} (h : Heap) (s : VolumeSpec σ) : Prop :=
  (∀ a, s.VolumeLabels = some a → a < h.maps.length) ∧
  (∀ p, s.ReplicaSet = some p → p < h.rsets.length ∧ h.validSlice (h.readRset p).Nodes)

/-- The map the loop of `Copy` builds from the entries of `m`. -/
def copiedMap (m : GoMap String String) : GoMap String String :=
  m.entries.foldl (fun a e => a.insert e.1 e.2) ∅

/-- One mutation made through a `VolumeSpec`: `VolumeLabels[k] = v` (an
insertion or an update), `delete(VolumeLabels, k)`, or
`ReplicaSet.Nodes[i] = x`. -/
inductive Mutation where
  | setLabel (k v : String)
  | deleteLabel (k : String)
  | setNode (i : Nat) (x : String)
deriving DecidableEq

/-- Run one mutation through `s`; `none` when the statement panics. -/
def VolumeSpec.mutate {σ : Type} (h : Heap) (s : VolumeSpec σ) : Mutation → Option Heap
  | .setLabel k v => s.setLabel h k v
  | .deleteLabel k => some (s.deleteLabel h k)
  | .setNode i x => s.setNode h i x

/-- Run a sequence of mutations through `s`, first to last. -/
def VolumeSpec.mutateAll {σ : Type} (h : Heap) (s : VolumeSpec σ) : List Mutation → Option Heap
  | [] => some h
  | m :: ms =>
    match s.mutate h m with
    | none => none
    | some h1 => s.mutateAll h1 ms

/-- The specs `x` and `y` hold no map object in common, and their replica
sets no backing array. -/
def separated {σ : Type} (h : Heap) (x y : VolumeSpec σ) : Prop :=
  (∀ a d, x.VolumeLabels = some a → y.VolumeLabels = some d → a ≠ d) ∧
  (∀ p q a1 o1 l1 a2 o2 l2, x.ReplicaSet = some p → y.ReplicaSet = some q →
    (h.readRset p).Nodes = .mk a1 o1 l1 → (h.readRset q).Nodes = .mk a2 o2 l2 → a1 ≠ a2)

/-- An example heap: one label map `{"a": "b"}`, and one `ReplicaSet` whose
nodes are the two elements of the only array. -/
def exampleHeap : Heap :=
  ⟨[(∅ : GoMap String String).insert "a" "b"], [⟨.mk 0 0 2⟩], [["n1", "n2"]]⟩

/-- An example spec over `exampleHeap`, with a single scalar field. -/
def exampleSpec : VolumeSpec Nat := ⟨4096, some 0, some 0⟩

/-! ## The alert facade -/

/-- Modelled from the spec: the generated enum `SeverityType`, of which the
facade uses the three constants `SeverityType_SEVERITY_TYPE_*`. -/
inductive SeverityType where
  | SEVERITY_TYPE_ALARM
  | SEVERITY_TYPE_NOTIFY
  | SEVERITY_TYPE_WARNING
deriving DecidableEq

/-- The generated enum `ResourceType`, by its integer code. -/
abbrev ResourceType := Int

/-- Modelled from the spec: the generated struct `Alert`, with the fields the
spec lists. -/
structure Alert where
  AlertType : Int
  Resource : ResourceType
  ResourceId : String
  Severity : SeverityType
  Message : String
  Id : Int
deriving DecidableEq

/-- The interface `AlertClient` over a store with state `σ`.  `Raise` takes
the alert by pointer, so it returns the alert as the store left it. -/
structure AlertClient (σ : Type) where
  Raise : σ → Alert → σ × Alert × GoError
  Clear : σ → ResourceType → Int → σ × GoError

/-- One call made on the store. -/
inductive StoreCall where
  | raise (alert : Alert)
  | clear (resourceType : ResourceType) (alertID : Int)
deriving DecidableEq

/-- The store's state together with the calls made on it so far, oldest
first. -/
structure World (σ : Type) where
  store : σ
  calls : List StoreCall

/-- The struct `alertInstance`. -/
structure alertInstance (σ : Type) where
  NodeID : String
  ClusterID : String
  Version : String
  kva : AlertClient σ

/-- The call `ai.kva.Raise(&alert)`. -/
def alertInstance.kvaRaise {σ : Type} (ai : alertInstance σ) (w : World σ) (alert : Alert) :
    (Alert × GoError) × World σ :=
  let r := ai.kva.Raise w.store alert
  ((r.2.1, r.2.2), ⟨r.1, w.calls ++ [.raise alert]⟩)

/-- The call `ai.kva.Clear(resourceType, alertID)`. -/
def alertInstance.kvaClear {σ : Type} (ai : alertInstance σ) (w : World σ)
    (resourceType : ResourceType) (alertID : Int) : GoError × World σ :=
  let r := ai.kva.Clear w.store resourceType alertID
  (r.2, ⟨r.1, w.calls ++ [.clear resourceType alertID]⟩)

/-- The method `alertInstance.raiseAlert`. -/
def alertInstance.raiseAlert {σ : Type} (ai : alertInstance σ) (w : World σ) (alertType : Int)
    (msg : String) (resourceType : ResourceType) (resourceID : String)
    (severity : SeverityType) : (Alert × GoError) × World σ :=
  let alert : Alert :=
    { AlertType := alertType
      Resource := resourceType
      ResourceId := resourceID
      Severity := severity
      Message := msg
      Id := 0 }
  ai.kvaRaise w alert

/-- The method `alertInstance.Clear`. -/
def alertInstance.Clear {σ : Type} (ai : alertInstance σ) (w : World σ)
    (resourceType : ResourceType) (alertID : Int) : GoError × World σ :=
  ai.kvaClear w resourceType alertID

/-- The method `alertInstance.Alarm`. -/
def alertInstance.Alarm {σ : Type} (ai : alertInstance σ) (w : World σ) (alertType : Int)
    (msg : String) (resourceType : ResourceType) (resourceID : String) :
    (Int × GoError) × World σ :=
  let r := ai.raiseAlert w alertType msg resourceType resourceID .SEVERITY_TYPE_ALARM
  ((r.1.1.Id, r.1.2), r.2)

/-- The method `alertInstance.Notify`. -/
def alertInstance.Notify {σ : Type} (ai : alertInstance σ) (w : World σ) (alertType : Int)
    (msg : String) (resourceType : ResourceType) (resourceID : String) :
    (Int × GoError) × World σ :=
  let r := ai.raiseAlert w alertType msg resourceType resourceID .SEVERITY_TYPE_NOTIFY
  ((r.1.1.Id, r.1.2), r.2)

/-- The method `alertInstance.Warn`. -/
def alertInstance.Warn {σ : Type} (ai : alertInstance σ) (w : World σ) (alertType : Int)
    (msg : String) (resourceType : ResourceType) (resourceID : String) :
    (Int × GoError) × World σ :=
  let r := ai.raiseAlert w alertType msg resourceType resourceID .SEVERITY_TYPE_WARNING
  ((r.1.1.Id, r.1.2), r.2)

/-- The method `alertInstance.Alert`, kept for backward compatibility: it does
nothing and returns `nil`.  The receiver is a pointer the body never follows,
so it may be `nil` (`none`); the result carries the receiver and the world as
the call leaves them. -/
def alertInstance.Alert {σ : Type} (ai : Option (alertInstance σ)) (w : World σ)
    (_name : String) (_msg : String) : GoError × Option (alertInstance σ) × World σ :=
  (none, ai, w)

/-- An example store that rejects every alert: `Raise` leaves the alert as it
got it and returns an error, `Clear` returns an error. -/
def rejectingStore : AlertClient Unit where
  Raise := fun st alert => (st, alert, some "store unavailable")
  Clear := fun st _ _ => (st, some "store unavailable")

/-- An example store that numbers the alerts: `Raise` assigns the next id and
succeeds, `Clear` succeeds. -/
def numberingStore : AlertClient Nat where
  Raise := fun st alert => (st + 1, { alert with Id := Int.ofNat (st + 1) }, none)
  Clear := fun st _ _ => (st, none)

/-! ## Strings for VolumeSpec

The first constant block of `api.go`, in its order.
-/

/-- The constant `Name`. -/
def Name : String := "name"

/-- The constant `SpecNodes`. -/
def SpecNodes : String := "nodes"

/-- The constant `SpecParent`. -/
def SpecParent : String := "parent"

/-- The constant `SpecEphemeral`. -/
def SpecEphemeral : String := "ephemeral"

/-- The constant `SpecShared`. -/
def SpecShared : String := "shared"

/-- The constant `SpecJournal`. -/
def SpecJournal : String := "journal"

/-- The constant `SpecNfs`. -/
def SpecNfs : String := "nfs"

/-- The constant `SpecCascaded`. -/
def SpecCascaded : String := "cascaded"

/-- The constant `SpecSticky`. -/
def SpecSticky : String := "sticky"

/-- The constant `SpecSecure`. -/
def SpecSecure : String := "secure"

/-- The constant `SpecCompressed`. -/
def SpecCompressed : String := "compressed"

/-- The constant `SpecSize`. -/
def SpecSize : String := "size"

/-- The constant `SpecScale`. -/
def SpecScale : String := "scale"

/-- The constant `SpecFilesystem`. -/
def SpecFilesystem : String := "fs"

/-- The constant `SpecBlockSize`. -/
def SpecBlockSize : String := "block_size"

/-- The constant `SpecHaLevel`. -/
def SpecHaLevel : String := "repl"

/-- The constant `SpecPriority`. -/
def SpecPriority : String := "io_priority"

/-- The constant `SpecSnapshotInterval`. -/
def SpecSnapshotInterval : String := "snap_interval"

/-- The constant `SpecSnapshotSchedule`. -/
def SpecSnapshotSchedule : String := "snap_schedule"

/-- The constant `SpecAggregationLevel`. -/
def SpecAggregationLevel : String := "aggregation_level"

/-- The constant `SpecDedupe`. -/
def SpecDedupe : String := "dedupe"

/-- The constant `SpecPassphrase`. -/
def SpecPassphrase : String := "secret_key"

/-- The constant `SpecAutoAggregationValue`. -/
def SpecAutoAggregationValue : String := "auto"

/-- The constant `SpecGroup`. -/
def SpecGroup : String := "group"

/-- The constant `SpecGroupEnforce`. -/
def SpecGroupEnforce : String := "fg"

/-- The constant `SpecZones`. -/
def SpecZones : String := "zones"

/-- The constant `SpecRacks`. -/
def SpecRacks : String := "racks"

/-- The constant `SpecRack`. -/
def SpecRack : String := "rack"

/-- The constant `SpecRegions`. -/
def SpecRegions : String := "regions"

/-- The constant `SpecLabels`. -/
def SpecLabels : String := "labels"

/-- The constant `SpecPriorityAlias`. -/
def SpecPriorityAlias : String := "priority_io"

/-- The constant `SpecIoProfile`. -/
def SpecIoProfile : String := "io_profile"

/-- The key constants of the block, in its order; `SpecAutoAggregationValue`
is a value, not a key, and is left out. -/
def specKeys : List String :=
  [Name, SpecNodes, SpecParent, SpecEphemeral, SpecShared, SpecJournal, SpecNfs,
   SpecCascaded, SpecSticky, SpecSecure, SpecCompressed, SpecSize, SpecScale,
   SpecFilesystem, SpecBlockSize, SpecHaLevel, SpecPriority, SpecSnapshotInterval,
   SpecSnapshotSchedule, SpecAggregationLevel, SpecDedupe, SpecPassphrase, SpecGroup,
   SpecGroupEnforce, SpecZones, SpecRacks, SpecRack, SpecRegions, SpecLabels,
   SpecPriorityAlias, SpecIoProfile]

/-! ## Example tables

The generated tables (`IoProfile_name`, `CosType_value`, ...) are not part of
`api.go`; these are small tables of the two shapes the generator emits: raw
names that carry the upper-cased type prefix, and raw names that do not.
-/

/-- Two tables are inverse to each other: `nameMap` sends `k` to `n` exactly
when `valueMap` sends `n` to `k`. -/
def inverseTables (nameMap : GoMap Int String) (valueMap : GoMap String Int) : Prop :=
  ∀ k n, nameMap.lookup k = some n ↔ valueMap.lookup n = some k

/-- A name table whose raw names carry the prefix `IO_PROFILE_`. -/
def exampleIoProfileName : GoMap Int String :=
  ((∅ : GoMap Int String).insert 1 "IO_PROFILE_RANDOM").insert 0 "IO_PROFILE_SEQUENTIAL"

/-- The value table inverse to `exampleIoProfileName`. -/
def exampleIoProfileValue : GoMap String Int :=
  ((∅ : GoMap String Int).insert "IO_PROFILE_RANDOM" 1).insert "IO_PROFILE_SEQUENTIAL" 0

/-- A name table whose raw names carry no type prefix. -/
def exampleCosName : GoMap Int String :=
  ((∅ : GoMap Int String).insert 1 "LOW").insert 0 "NONE"

/-- The value table inverse to `exampleCosName`. -/
def exampleCosValue : GoMap String Int :=
  ((∅ : GoMap String Int).insert "LOW" 1).insert "NONE" 0

/-- A name table with a raw name in which the prefix `IO_PROFILE_` occurs
twice, and one without it. -/
def exampleOddName : GoMap Int String :=
  ((∅ : GoMap Int String).insert 6 "db_remote").insert 5 "IO_PROFILE_IO_PROFILE_DB"

/-- The case table treats the three literals of the `CosType` codec as the
tables of the Go library do: `cos_type` is already lower case, and
`cos_type_` and `COS_TYPE_` are each other's upper and lower case. -/
def cosTypeLiterals (cm : CaseMap) : Prop :=
  toLower cm "cos_type" = "cos_type" ∧
  toUpper cm "cos_type_" = "COS_TYPE_" ∧
  toLower cm "COS_TYPE_" = "cos_type_"

/-- A name table with a raw name that carries the prefix `COS_TYPE_`. -/
def examplePrefixedCosName : GoMap Int String :=
  (∅ : GoMap Int String).insert 3 "COS_TYPE_HIGH"

/-- The value table inverse to `examplePrefixedCosName`. -/
def examplePrefixedCosValue : GoMap String Int :=
  (∅ : GoMap String Int).insert "COS_TYPE_HIGH" 3

/-! # Properties

## The enum codec
-/

/-- Trimming a prefix that is there leaves the remainder. -/
theorem trimPrefix_append (pre r : String) : trimPrefix (pre ++ r) pre = r := by
  have hp : List.isPrefixOf pre.data (pre.data ++ r.data) = true :=
    List.isPrefixOf_iff_prefix.mpr (List.prefix_append _ _)
  simp [trimPrefix, String.data_append, hp]

/-- The two IoProfile example tables are inverse to each other. -/
theorem exampleIoProfile_inverse : inverseTables exampleIoProfileName exampleIoProfileValue := by
  intro k n
  have hN : exampleIoProfileName.entries =
      [⟨0, "IO_PROFILE_SEQUENTIAL"⟩, ⟨1, "IO_PROFILE_RANDOM"⟩] := by decide
  have hV : exampleIoProfileValue.entries =
      [⟨"IO_PROFILE_SEQUENTIAL", 0⟩, ⟨"IO_PROFILE_RANDOM", 1⟩] := by decide
  constructor
  · intro h
    have hm : (⟨k, n⟩ : Sigma fun _ : Int => String) ∈ exampleIoProfileName.entries :=
      AList.mem_lookup_iff.mp h
    rw [hN] at hm
    simp only [List.mem_cons, Sigma.mk.inj_iff, heq_eq_eq, List.mem_singleton,
      List.not_mem_nil, or_false] at hm
    rcases hm with ⟨rfl, rfl⟩ | ⟨rfl, rfl⟩ <;> decide
  · intro h
    have hm : (⟨n, k⟩ : Sigma fun _ : String => Int) ∈ exampleIoProfileValue.entries :=
      AList.mem_lookup_iff.mp h
    rw [hV] at hm
    simp only [List.mem_cons, Sigma.mk.inj_iff, heq_eq_eq, List.mem_singleton,
      List.not_mem_nil, or_false] at hm
    rcases hm with ⟨rfl, rfl⟩ | ⟨rfl, rfl⟩ <;> decide

/-- The two prefix-free example tables are inverse to each other. -/
theorem exampleCos_inverse : inverseTables exampleCosName exampleCosValue := by
  intro k n
  have hN : exampleCosName.entries = [⟨0, "NONE"⟩, ⟨1, "LOW"⟩] := by decide
  have hV : exampleCosValue.entries = [⟨"NONE", 0⟩, ⟨"LOW", 1⟩] := by decide
  constructor
  · intro h
    have hm : (⟨k, n⟩ : Sigma fun _ : Int => String) ∈ exampleCosName.entries :=
      AList.mem_lookup_iff.mp h
    rw [hN] at hm
    simp only [List.mem_cons, Sigma.mk.inj_iff, heq_eq_eq, List.mem_singleton,
      List.not_mem_nil, or_false] at hm
    rcases hm with ⟨rfl, rfl⟩ | ⟨rfl, rfl⟩ <;> decide
  · intro h
    have hm : (⟨n, k⟩ : Sigma fun _ : String => Int) ∈ exampleCosValue.entries :=
      AList.mem_lookup_iff.mp h
    rw [hV] at hm
    simp only [List.mem_cons, Sigma.mk.inj_iff, heq_eq_eq, List.mem_singleton,
      List.not_mem_nil, or_false] at hm
    rcases hm with ⟨rfl, rfl⟩ | ⟨rfl, rfl⟩ <;> decide

/-- C1, as stated, fails: with the type prefix `cos_type` and a name table
whose raw names carry no prefix, the value `1` named `LOW` is in the table and
the value table is its inverse, yet `simpleString` gives `low` and
`simpleValueOf` looks up `COS_TYPE_LOW`, finds nothing and returns the
not-found error instead of `1`. -/
theorem roundtrip_counterexample :
    inverseTables exampleCosName exampleCosValue ∧
    exampleCosName.lookup 1 = some "LOW" ∧
    simpleString asciiCase "cos_type" exampleCosName 1 = "low" ∧
    simpleValueOf asciiCase "cos_type" exampleCosValue
        (simpleString asciiCase "cos_type" exampleCosName 1) =
      (0, some "no openstorage.COS_TYPE for low") ∧
    simpleValueOf asciiCase "cos_type" exampleCosValue
        (simpleString asciiCase "cos_type" exampleCosName 1) ≠ (1, none) :=
  ⟨exampleCos_inverse, by decide, by decide, by decide, by decide⟩

/-- C1, amended: for every case table, type prefix `p`, name table with its
inverse value table, and value `v` of the name table whose raw name `n` has
the prefixed shape, that is `lowercase(n) = lowercase(p) + "_" + r` and
`uppercase(p + "_" + r) = n` for some `r`, `simpleString` returns `r` and
`simpleValueOf` applied to it succeeds and returns `v`. -/
theorem roundtrip_of_prefixed (cm : CaseMap) (p : String) (nameMap : GoMap Int String)
    (valueMap : GoMap String Int) (hinv : inverseTables nameMap valueMap)
    (v : Int) (n r : String) (hv : nameMap.lookup v = some n)
    (hlow : toLower cm n = toLower cm p ++ "_" ++ r)
    (hup : toUpper cm (p ++ "_" ++ r) = n) :
    simpleString cm p nameMap v = r ∧
    simpleValueOf cm p valueMap (simpleString cm p nameMap v) = (v, none) := by
  have hs : simpleString cm p nameMap v = r := by
    simp only [simpleString, hv, hlow]
    exact trimPrefix_append _ _
  refine ⟨hs, ?_⟩
  rw [hs]
  simp only [simpleValueOf]
  rw [hup, (hinv v n).mp hv]

/-- The witness of C1: `IO_PROFILE_SEQUENTIAL` prints as `sequential`, which
parses back to the same value. -/
theorem roundtrip_of_prefixed_witness :
    inverseTables exampleIoProfileName exampleIoProfileValue ∧
    exampleIoProfileName.lookup 0 = some "IO_PROFILE_SEQUENTIAL" ∧
    IoProfile.SimpleString asciiCase exampleIoProfileName 0 = "sequential" ∧
    IoProfileSimpleValueOf asciiCase exampleIoProfileValue
        (IoProfile.SimpleString asciiCase exampleIoProfileName 0) = (0, none) :=
  ⟨exampleIoProfile_inverse, by decide,
    roundtrip_of_prefixed asciiCase "io_profile" exampleIoProfileName exampleIoProfileValue
      exampleIoProfile_inverse 0 "IO_PROFILE_SEQUENTIAL" "sequential" (by decide)
      (by decide) (by decide)⟩

/-- Upper-casing goes through concatenation. -/
theorem toUpper_append (cm : CaseMap) (a b : String) :
    toUpper cm (a ++ b) = toUpper cm a ++ toUpper cm b := by
  apply String.ext
  simp [toUpper, String.data_append]

/-- A string that does not start with `pre` is left alone by `trimPrefix`. -/
theorem trimPrefix_of_not_prefix (s pre : String) (h : ¬ ∃ r, s = pre ++ r) :
    trimPrefix s pre = s := by
  have hp : List.isPrefixOf pre.data s.data = false := by
    rw [Bool.eq_false_iff]
    intro hpre
    obtain ⟨t, ht⟩ := List.isPrefixOf_iff_prefix.mp hpre
    exact h ⟨⟨t⟩, String.ext (by simp [String.data_append, ht])⟩
  simp [trimPrefix, hp]

/-- C13: `simpleValueOf(p, V, s)` succeeds iff the key
`uppercase(p + "_" + s)` is present in `V`, and then returns the value stored
under it; otherwise it returns, without panicking, the value `0` and the
not-found error `"no openstorage." + uppercase(p) + " for " + s`, which carries
`s` as it was given. -/
theorem simpleValueOf_iff (cm : CaseMap) (p : String) (valueMap : GoMap String Int)
    (s : String) :
    (∀ obj, valueMap.lookup (toUpper cm (p ++ "_" ++ s)) = some obj →
      simpleValueOf cm p valueMap s = (obj, none)) ∧
    (valueMap.lookup (toUpper cm (p ++ "_" ++ s)) = none →
      simpleValueOf cm p valueMap s =
        (0, some ("no openstorage." ++ toUpper cm p ++ " for " ++ s))) ∧
    ((simpleValueOf cm p valueMap s).2 = none ↔ toUpper cm (p ++ "_" ++ s) ∈ valueMap) ∧
    ((simpleValueOf cm p valueMap s).2 ≠ none →
      simpleValueOf cm p valueMap s =
        (0, some ("no openstorage." ++ toUpper cm p ++ " for " ++ s))) := by
  cases hl : valueMap.lookup (toUpper cm (p ++ "_" ++ s)) with
  | none =>
    have hnot : toUpper cm (p ++ "_" ++ s) ∉ valueMap := by
      rw [← AList.lookup_isSome, hl]
      simp
    simp [simpleValueOf, hl, hnot]
  | some obj =>
    have hmem : toUpper cm (p ++ "_" ++ s) ∈ valueMap := by
      rw [← AList.lookup_isSome, hl]
      rfl
    simp [simpleValueOf, hl, hmem]

/-- The witness of C13: `sequential` is found under `IO_PROFILE_SEQUENTIAL`,
and `bogus` yields the not-found error that names it. -/
theorem simpleValueOf_iff_witness :
    simpleValueOf asciiCase "io_profile" exampleIoProfileValue "sequential" = (0, none) ∧
    simpleValueOf asciiCase "io_profile" exampleIoProfileValue "random" = (1, none) ∧
    simpleValueOf asciiCase "io_profile" exampleIoProfileValue "bogus" =
      (0, some "no openstorage.IO_PROFILE for bogus") :=
  ⟨(simpleValueOf_iff asciiCase "io_profile" exampleIoProfileValue "sequential").1 0
      (by decide),
   (simpleValueOf_iff asciiCase "io_profile" exampleIoProfileValue "random").1 1
      (by decide),
   (simpleValueOf_iff asciiCase "io_profile" exampleIoProfileValue "bogus").2.1
      (by decide)⟩

/-- C14: `simpleString(p, N, v)` always returns a string.  When `v` is not a
key of `N` it is the decimal string of `v`, with a leading minus sign for a
negative `v`; when `v` is a key with raw name `n` it is `lowercase(n)` without
one leading `lowercase(p) + "_"`, and `lowercase(n)` itself when that does not
start with `lowercase(p) + "_"`. -/
theorem simpleString_eq (cm : CaseMap) (p : String) (nameMap : GoMap Int String) (v : Int) :
    (nameMap.lookup v = none → simpleString cm p nameMap v = itoa v) ∧
    (0 ≤ v → itoa v = Nat.repr v.toNat) ∧
    (v < 0 → itoa v = "-" ++ Nat.repr v.natAbs) ∧
    (∀ n r, nameMap.lookup v = some n → toLower cm n = toLower cm p ++ "_" ++ r →
      simpleString cm p nameMap v = r) ∧
    (∀ n, nameMap.lookup v = some n → (¬ ∃ r, toLower cm n = toLower cm p ++ "_" ++ r) →
      simpleString cm p nameMap v = toLower cm n) := by
  refine ⟨?_, ?_, ?_, ?_, ?_⟩
  · intro h
    simp [simpleString, h]
  · intro h
    obtain ⟨k, rfl⟩ := Int.eq_ofNat_of_zero_le h
    rfl
  · intro h
    obtain ⟨k, rfl⟩ := Int.eq_negSucc_of_lt_zero h
    rfl
  · intro n r hn hr
    simp only [simpleString, hn, hr]
    exact trimPrefix_append _ _
  · intro n hn hr
    simp only [simpleString, hn]
    exact trimPrefix_of_not_prefix _ _ hr

/-- The witness of C14: an unknown value prints as its decimal digits, a
negative one with a minus sign; `IO_PROFILE_IO_PROFILE_DB` loses one leading
`io_profile_` only, and `db_remote`, which has no prefix, is returned
lower-cased as it is. -/
theorem simpleString_eq_witness :
    simpleString asciiCase "io_profile" exampleOddName 7 = "7" ∧
    simpleString asciiCase "io_profile" exampleOddName (-2147483648) = "-2147483648" ∧
    itoa (-12) = "-" ++ Nat.repr 12 ∧
    simpleString asciiCase "io_profile" exampleOddName 5 = "io_profile_db" ∧
    simpleString asciiCase "io_profile" exampleOddName 6 = "db_remote" := by
  have h7 := (simpleString_eq asciiCase "io_profile" exampleOddName 7).1 (by decide)
  have hneg := (simpleString_eq asciiCase "io_profile" exampleOddName (-2147483648)).1
    (by decide)
  have hm := (simpleString_eq asciiCase "io_profile" exampleOddName (-12)).2.2.1 (by decide)
  have h5 := (simpleString_eq asciiCase "io_profile" exampleOddName 5).2.2.2.1
    "IO_PROFILE_IO_PROFILE_DB" "io_profile_db" (by decide) (by decide)
  have h6 : simpleString asciiCase "io_profile" exampleOddName 6 = "db_remote" := by decide
  exact ⟨h7.trans (by decide), hneg.trans (by decide), hm, h5, h6⟩

/-- C15: parsing is case-insensitive.  When `s` and `s'` are equal after
upper-casing, `simpleValueOf(p, V, s)` and `simpleValueOf(p, V, s')` both fail
or both succeed, and they return the same value. -/
theorem simpleValueOf_case_insensitive (cm : CaseMap) (p : String)
    (valueMap : GoMap String Int) (s s' : String) (h : toUpper cm s = toUpper cm s') :
    (simpleValueOf cm p valueMap s).1 = (simpleValueOf cm p valueMap s').1 ∧
    ((simpleValueOf cm p valueMap s).2 = none ↔ (simpleValueOf cm p valueMap s').2 = none) ∧
    (∀ obj, simpleValueOf cm p valueMap s = (obj, none) ↔
      simpleValueOf cm p valueMap s' = (obj, none)) := by
  have hkey : toUpper cm (p ++ "_" ++ s) = toUpper cm (p ++ "_" ++ s') := by
    rw [toUpper_append, toUpper_append cm (p ++ "_") s', h]
  unfold simpleValueOf
  rw [hkey]
  cases valueMap.lookup (toUpper cm (p ++ "_" ++ s')) <;> simp

/-- The witness of C15: `sequential`, `Sequential` and `SEQUENTIAL` parse to
the same value. -/
theorem simpleValueOf_case_insensitive_witness :
    toUpper asciiCase "sequential" = toUpper asciiCase "Sequential" ∧
    toUpper asciiCase "Sequential" = toUpper asciiCase "SEQUENTIAL" ∧
    IoProfileSimpleValueOf asciiCase exampleIoProfileValue "sequential" = (0, none) ∧
    IoProfileSimpleValueOf asciiCase exampleIoProfileValue "Sequential" = (0, none) ∧
    IoProfileSimpleValueOf asciiCase exampleIoProfileValue "SEQUENTIAL" = (0, none) := by
  have h1 : toUpper asciiCase "sequential" = toUpper asciiCase "Sequential" := by decide
  have h2 : toUpper asciiCase "Sequential" = toUpper asciiCase "SEQUENTIAL" := by decide
  have h0 : simpleValueOf asciiCase "io_profile" exampleIoProfileValue "sequential" =
      (0, none) := by decide
  have t1 := (simpleValueOf_case_insensitive asciiCase "io_profile" exampleIoProfileValue
    "sequential" "Sequential" h1).2.2 0
  have t2 := (simpleValueOf_case_insensitive asciiCase "io_profile" exampleIoProfileValue
    "Sequential" "SEQUENTIAL" h2).2.2 0
  exact ⟨h1, h2, h0, t1.mp h0, t2.mp (t1.mp h0)⟩

/-- C16: `CosTypeSimpleValueOf(s)` looks up `uppercase(s)` itself in the value
table, with no prefix put in front: it returns the value found and no error,
and otherwise `-1` with the error `"Invalid cos value: " + s`.  So, with
`uppercase("cos_type_") = "COS_TYPE_"`, its result differs from that of
`simpleValueOf("cos_type", V, s)` whenever exactly one of the keys
`uppercase(s)` and `"COS_TYPE_" + uppercase(s)` is present. -/
theorem cosTypeSimpleValueOf_eq (cm : CaseMap) (valueMap : GoMap String Int) (s : String) :
    (∀ obj, valueMap.lookup (toUpper cm s) = some obj →
      CosTypeSimpleValueOf cm valueMap s = (obj, none)) ∧
    (valueMap.lookup (toUpper cm s) = none →
      CosTypeSimpleValueOf cm valueMap s = (-1, some ("Invalid cos value: " ++ s))) ∧
    (toUpper cm "cos_type_" = "COS_TYPE_" →
      ((toUpper cm s ∈ valueMap ∧ "COS_TYPE_" ++ toUpper cm s ∉ valueMap) ∨
        (toUpper cm s ∉ valueMap ∧ "COS_TYPE_" ++ toUpper cm s ∈ valueMap)) →
      CosTypeSimpleValueOf cm valueMap s ≠ simpleValueOf cm "cos_type" valueMap s) := by
  refine ⟨?_, ?_, ?_⟩
  · intro obj h
    simp [CosTypeSimpleValueOf, h]
  · intro h
    simp [CosTypeSimpleValueOf, h]
  · intro hcase hone
    have hlit : ("cos_type" : String) ++ "_" = "cos_type_" := by decide
    have hkey : toUpper cm ("cos_type" ++ "_" ++ s) = "COS_TYPE_" ++ toUpper cm s := by
      rw [toUpper_append, hlit, hcase]
    rcases hone with ⟨hin, hout⟩ | ⟨hout, hin⟩
    · have h1 : (valueMap.lookup (toUpper cm s)).isSome = true := AList.lookup_isSome.mpr hin
      have h2 : valueMap.lookup ("COS_TYPE_" ++ toUpper cm s) = none := by
        rw [← Option.not_isSome_iff_eq_none, AList.lookup_isSome]
        exact hout
      obtain ⟨obj, hobj⟩ := Option.isSome_iff_exists.mp h1
      unfold CosTypeSimpleValueOf simpleValueOf
      rw [hkey, hobj, h2]
      simp
    · have h1 : (valueMap.lookup ("COS_TYPE_" ++ toUpper cm s)).isSome = true :=
        AList.lookup_isSome.mpr hin
      have h2 : valueMap.lookup (toUpper cm s) = none := by
        rw [← Option.not_isSome_iff_eq_none, AList.lookup_isSome]
        exact hout
      obtain ⟨obj, hobj⟩ := Option.isSome_iff_exists.mp h1
      unfold CosTypeSimpleValueOf simpleValueOf
      rw [hkey, hobj, h2]
      simp

/-- The witness of C16: with the prefix-free table, `low` parses to `1` through
`CosTypeSimpleValueOf` and fails through `simpleValueOf`, and `bogus` gives
`-1` and the error that names it. -/
theorem cosTypeSimpleValueOf_eq_witness :
    CosTypeSimpleValueOf asciiCase exampleCosValue "low" = (1, none) ∧
    CosTypeSimpleValueOf asciiCase exampleCosValue "bogus" =
      (-1, some "Invalid cos value: bogus") ∧
    simpleValueOf asciiCase "cos_type" exampleCosValue "low" =
      (0, some "no openstorage.COS_TYPE for low") ∧
    CosTypeSimpleValueOf asciiCase exampleCosValue "low" ≠
      simpleValueOf asciiCase "cos_type" exampleCosValue "low" :=
  ⟨(cosTypeSimpleValueOf_eq asciiCase exampleCosValue "low").1 1 (by decide),
   (cosTypeSimpleValueOf_eq asciiCase exampleCosValue "bogus").2.1 (by decide),
   by decide,
   (cosTypeSimpleValueOf_eq asciiCase exampleCosValue "low").2.2 (by decide)
     (Or.inl ⟨by decide, by decide⟩)⟩

/-- Lower-casing goes through concatenation. -/
theorem toLower_append (cm : CaseMap) (a b : String) :
    toLower cm (a ++ b) = toLower cm a ++ toLower cm b := by
  apply String.ext
  simp [toLower, String.data_append]

/-- A common head can be dropped from an equation between strings. -/
theorem append_left_cancel (a b c : String) (h : a ++ b = a ++ c) : b = c := by
  apply String.ext
  have hd := congrArg String.data h
  simp only [String.data_append] at hd
  exact List.append_cancel_left hd

/-- The ASCII case table treats the `CosType` literals as required. -/
theorem asciiCase_cosTypeLiterals : cosTypeLiterals asciiCase :=
  ⟨by decide, by decide, by decide⟩

/-- The two prefixed example tables are inverse to each other. -/
theorem examplePrefixedCos_inverse :
    inverseTables examplePrefixedCosName examplePrefixedCosValue := by
  intro k n
  have hN : examplePrefixedCosName.entries = [⟨3, "COS_TYPE_HIGH"⟩] := by decide
  have hV : examplePrefixedCosValue.entries = [⟨"COS_TYPE_HIGH", 3⟩] := by decide
  constructor
  · intro h
    have hm : (⟨k, n⟩ : Sigma fun _ : Int => String) ∈ examplePrefixedCosName.entries :=
      AList.mem_lookup_iff.mp h
    rw [hN] at hm
    simp only [List.mem_singleton, Sigma.mk.inj_iff, heq_eq_eq] at hm
    obtain ⟨rfl, rfl⟩ := hm
    decide
  · intro h
    have hm : (⟨n, k⟩ : Sigma fun _ : String => Int) ∈ examplePrefixedCosValue.entries :=
      AList.mem_lookup_iff.mp h
    rw [hV] at hm
    simp only [List.mem_singleton, Sigma.mk.inj_iff, heq_eq_eq] at hm
    obtain ⟨rfl, rfl⟩ := hm
    decide

/-- C21: the `CosType` codec round-trips although its two halves differ.  Let
`x` be a value of the name table with raw name `n`, and let the case table act
on the literals of the codec as Go's does.  If `n` is unchanged by lower-casing
then upper-casing and does not begin with `COS_TYPE_`, then, the value table
being the inverse of the name table, `x.SimpleString()` is `lowercase(n)` and
`CosTypeSimpleValueOf` of it succeeds and returns `x`.  If `n` is `COS_TYPE_`
followed by `r`, then `x.SimpleString()` is `lowercase(r)`, and
`CosTypeSimpleValueOf` of it fails with `-1` and the error
`"Invalid cos value: " + lowercase(r)` when `uppercase(lowercase(r))` is not a
key of the value table, so when `n` is unchanged by lower-casing then
upper-casing and `r` is not a key. -/
theorem cosType_roundtrip (cm : CaseMap) (hc : cosTypeLiterals cm)
    (nameMap : GoMap Int String) (valueMap : GoMap String Int) (x : Int) (n : String)
    (hx : nameMap.lookup x = some n) :
    (inverseTables nameMap valueMap → toUpper cm (toLower cm n) = n →
      (¬ ∃ r, n = "COS_TYPE_" ++ r) →
      CosType.SimpleString cm nameMap x = toLower cm n ∧
      CosTypeSimpleValueOf cm valueMap (CosType.SimpleString cm nameMap x) = (x, none)) ∧
    (∀ r, n = "COS_TYPE_" ++ r →
      CosType.SimpleString cm nameMap x = toLower cm r ∧
      (toUpper cm (toLower cm r) ∉ valueMap →
        CosTypeSimpleValueOf cm valueMap (CosType.SimpleString cm nameMap x) =
          (-1, some ("Invalid cos value: " ++ toLower cm r))) ∧
      (toUpper cm (toLower cm n) = n → r ∉ valueMap →
        CosTypeSimpleValueOf cm valueMap (CosType.SimpleString cm nameMap x) =
          (-1, some ("Invalid cos value: " ++ toLower cm r)))) := by
  obtain ⟨hlow, hup, hlowU⟩ := hc
  have hlit : ("cos_type" : String) ++ "_" = "cos_type_" := by decide
  have hpre : toLower cm "cos_type" ++ "_" = "cos_type_" := by rw [hlow, hlit]
  have hstr : CosType.SimpleString cm nameMap x =
      trimPrefix (toLower cm n) (toLower cm "cos_type" ++ "_") := by
    unfold CosType.SimpleString simpleString
    rw [hx]
  constructor
  · intro hinv hstable hno
    have hnp : ¬ ∃ r, toLower cm n = (toLower cm "cos_type" ++ "_") ++ r := by
      rintro ⟨r, hr⟩
      apply hno
      refine ⟨toUpper cm r, ?_⟩
      rw [← hstable, hr, hpre, toUpper_append, hup]
    have hs : CosType.SimpleString cm nameMap x = toLower cm n := by
      rw [hstr]
      exact trimPrefix_of_not_prefix _ _ hnp
    refine ⟨hs, ?_⟩
    rw [hs]
    unfold CosTypeSimpleValueOf
    rw [hstable, (hinv x n).mp hx]
  · intro r hr
    have hs : CosType.SimpleString cm nameMap x = toLower cm r := by
      rw [hstr, hpre, hr, toLower_append, hlowU]
      exact trimPrefix_append _ _
    have hfail : toUpper cm (toLower cm r) ∉ valueMap →
        CosTypeSimpleValueOf cm valueMap (CosType.SimpleString cm nameMap x) =
          (-1, some ("Invalid cos value: " ++ toLower cm r)) := by
      intro hout
      have hnone : valueMap.lookup (toUpper cm (toLower cm r)) = none := by
        rw [← Option.not_isSome_iff_eq_none, AList.lookup_isSome]
        exact hout
      rw [hs]
      unfold CosTypeSimpleValueOf
      rw [hnone]
    refine ⟨hs, hfail, ?_⟩
    intro hstable hout
    have hr2 : toUpper cm (toLower cm r) = r := by
      have h1 : toUpper cm (toLower cm n) = "COS_TYPE_" ++ toUpper cm (toLower cm r) := by
        rw [hr, toLower_append, hlowU, toUpper_append, hup]
      rw [hstable, hr] at h1
      exact (append_left_cancel _ _ _ h1).symm
    exact hfail (by rw [hr2]; exact hout)

/-- The witness of C21: in the prefix-free table `LOW` prints as `low`, which
parses back to its value `1`; in the prefixed table `COS_TYPE_HIGH` prints as
`high`, and `HIGH` is no key, so parsing it gives `-1` and the error. -/
theorem cosType_roundtrip_witness :
    cosTypeLiterals asciiCase ∧
    inverseTables exampleCosName exampleCosValue ∧
    CosType.SimpleString asciiCase exampleCosName 1 = "low" ∧
    CosTypeSimpleValueOf asciiCase exampleCosValue
      (CosType.SimpleString asciiCase exampleCosName 1) = (1, none) ∧
    inverseTables examplePrefixedCosName examplePrefixedCosValue ∧
    CosType.SimpleString asciiCase examplePrefixedCosName 3 = "high" ∧
    CosTypeSimpleValueOf asciiCase examplePrefixedCosValue
      (CosType.SimpleString asciiCase examplePrefixedCosName 3) =
        (-1, some "Invalid cos value: high") := by
  have t1 := (cosType_roundtrip asciiCase asciiCase_cosTypeLiterals exampleCosName
    exampleCosValue 1 "LOW" (by decide)).1 exampleCos_inverse (by decide)
    (by
      rintro ⟨r, hr⟩
      have hd := congrArg (fun t : String => t.data.head?) hr
      simp [String.data_append] at hd)
  have t2 := (cosType_roundtrip asciiCase asciiCase_cosTypeLiterals examplePrefixedCosName
    examplePrefixedCosValue 3 "COS_TYPE_HIGH" (by decide)).2 "HIGH" (by decide)
  exact ⟨asciiCase_cosTypeLiterals, exampleCos_inverse, t1.1.trans (by decide), t1.2,
    examplePrefixedCos_inverse, t2.1.trans (by decide),
    (t2.2.2 (by decide) (by decide)).trans (by decide)⟩

/-! ## Stats metrics -/

/-- C2: with `seconds = IntervalMs / 1000`, `WriteThroughput` is
`WriteBytes / seconds` and `ReadThroughput` is `ReadBytes / seconds` when
`seconds > 0`; both are `0` when `seconds = 0`, that is for every
`IntervalMs < 1000`. -/
theorem throughput_eq (v : Stats) :
    (0 < v.IntervalMs / 1000 →
      v.WriteThroughput = some (v.WriteBytes / (v.IntervalMs / 1000)) ∧
      v.ReadThroughput = some (v.ReadBytes / (v.IntervalMs / 1000))) ∧
    (v.IntervalMs / 1000 = 0 → v.WriteThroughput = some 0 ∧ v.ReadThroughput = some 0) ∧
    (v.IntervalMs < 1000 → v.WriteThroughput = some 0 ∧ v.ReadThroughput = some 0) := by
  have key : v.IntervalMs / 1000 = 0 → v.WriteThroughput = some 0 ∧ v.ReadThroughput = some 0 := by
    intro h
    simp [Stats.WriteThroughput, Stats.ReadThroughput, toSec, h]
  refine ⟨?_, key, ?_⟩
  · intro h
    have hne : v.IntervalMs / 1000 ≠ 0 := Nat.pos_iff_ne_zero.mp h
    simp [Stats.WriteThroughput, Stats.ReadThroughput, toSec, div64, hne]
  · intro h
    exact key (Nat.div_eq_of_lt h)

/-- The witness of C2: `IntervalMs = 0`, `WriteBytes = 1000` gives a write
throughput of `0`; over `IntervalMs = 2000`, `WriteBytes = 1000` and
`ReadBytes = 600` give `500` and `300`. -/
theorem throughput_eq_witness :
    (0 : Nat) < 1000 ∧
    (Stats.WriteThroughput ⟨0, 0, 0, 0, 0, 1000, 0, 0⟩ = some 0 ∧
      Stats.ReadThroughput ⟨0, 0, 0, 0, 0, 1000, 0, 0⟩ = some 0) ∧
    (0 : Nat) < 2000 / 1000 ∧
    (Stats.WriteThroughput ⟨0, 0, 600, 0, 0, 1000, 0, 2000⟩ = some 500 ∧
      Stats.ReadThroughput ⟨0, 0, 600, 0, 0, 1000, 0, 2000⟩ = some 300) :=
  ⟨by decide, (throughput_eq ⟨0, 0, 0, 0, 0, 1000, 0, 0⟩).2.2 (by decide),
    by decide, (throughput_eq ⟨0, 0, 600, 0, 0, 1000, 0, 2000⟩).1 (by decide)⟩

/-- C3: with `seconds = IntervalMs / 1000`, `Iops` is the `uint64` sum
`Writes + Reads` divided by `seconds` when `seconds > 0` (the plain sum when
it fits 64 bits), and `0` when `seconds = 0`. -/
theorem iops_eq (v : Stats) :
    (0 < v.IntervalMs / 1000 →
      v.Iops = some ((v.Writes + v.Reads) % 2 ^ 64 / (v.IntervalMs / 1000))) ∧
    (0 < v.IntervalMs / 1000 → v.Writes + v.Reads < 2 ^ 64 →
      v.Iops = some ((v.Writes + v.Reads) / (v.IntervalMs / 1000))) ∧
    (v.IntervalMs / 1000 = 0 → v.Iops = some 0) := by
  have h1 : 0 < v.IntervalMs / 1000 →
      v.Iops = some ((v.Writes + v.Reads) % 2 ^ 64 / (v.IntervalMs / 1000)) := by
    intro h
    have hne : v.IntervalMs / 1000 ≠ 0 := Nat.pos_iff_ne_zero.mp h
    simp [Stats.Iops, toSec, div64, add64, U64, hne]
  refine ⟨h1, ?_, ?_⟩
  · intro h hlt
    rw [h1 h, Nat.mod_eq_of_lt hlt]
  · intro h
    simp [Stats.Iops, toSec, h]

/-- The witness of C3: `IntervalMs = 2000`, `Reads = 10`, `Writes = 10` gives
`10`. -/
theorem iops_eq_witness :
    (0 : Nat) < 2000 / 1000 ∧ Stats.Iops ⟨10, 0, 0, 10, 0, 0, 0, 2000⟩ = some 10 :=
  ⟨by decide, (iops_eq ⟨10, 0, 0, 10, 0, 0, 0, 2000⟩).2.1 (by decide) (by decide)⟩

/-- Natural-number division is the floor of the quotient. -/
theorem div_floor_bounds (n d : Nat) (hd : d ≠ 0) : n / d * d ≤ n ∧ n < (n / d + 1) * d := by
  constructor
  · exact Nat.div_mul_le_self n d
  · rw [Nat.mul_comm (n / d + 1) d]
    exact Nat.lt_mul_div_succ n (Nat.pos_of_ne_zero hd)

/-- C4: `Latency` is `(IoMs * 1000) / (Writes + Reads)` and `0` when
`Writes + Reads` is `0`; `ReadLatency` is `(ReadMs * 1000) / Reads` and `0`
when `Reads = 0`; `WriteLatency` is `(WriteMs * 1000) / Writes` and `0` when
`Writes = 0`.  Sums and products are those of `uint64`, and each quotient `q`
is truncated: `q * divisor ≤ dividend < (q + 1) * divisor`. -/
theorem latency_eq (v : Stats) :
    (v.Latency = some (if (v.Writes + v.Reads) % 2 ^ 64 = 0 then 0
      else (v.IoMs * 1000) % 2 ^ 64 / ((v.Writes + v.Reads) % 2 ^ 64))) ∧
    (v.ReadLatency = some (if v.Reads = 0 then 0 else (v.ReadMs * 1000) % 2 ^ 64 / v.Reads)) ∧
    (v.WriteLatency = some (if v.Writes = 0 then 0
      else (v.WriteMs * 1000) % 2 ^ 64 / v.Writes)) ∧
    (∀ q : Nat, (v.Writes + v.Reads) % 2 ^ 64 ≠ 0 → v.Latency = some q →
      q * ((v.Writes + v.Reads) % 2 ^ 64) ≤ (v.IoMs * 1000) % 2 ^ 64 ∧
      (v.IoMs * 1000) % 2 ^ 64 < (q + 1) * ((v.Writes + v.Reads) % 2 ^ 64)) ∧
    (∀ q : Nat, v.Reads ≠ 0 → v.ReadLatency = some q →
      q * v.Reads ≤ (v.ReadMs * 1000) % 2 ^ 64 ∧
      (v.ReadMs * 1000) % 2 ^ 64 < (q + 1) * v.Reads) ∧
    (∀ q : Nat, v.Writes ≠ 0 → v.WriteLatency = some q →
      q * v.Writes ≤ (v.WriteMs * 1000) % 2 ^ 64 ∧
      (v.WriteMs * 1000) % 2 ^ 64 < (q + 1) * v.Writes) := by
  have hL : v.Latency = some (if (v.Writes + v.Reads) % 2 ^ 64 = 0 then 0
      else (v.IoMs * 1000) % 2 ^ 64 / ((v.Writes + v.Reads) % 2 ^ 64)) := by
    simp only [Stats.Latency, div64, add64, mul64, U64]
    split_ifs <;> rfl
  have hR : v.ReadLatency =
      some (if v.Reads = 0 then 0 else (v.ReadMs * 1000) % 2 ^ 64 / v.Reads) := by
    by_cases h : v.Reads = 0 <;> simp [Stats.ReadLatency, div64, mul64, U64, h]
  have hW : v.WriteLatency = some (if v.Writes = 0 then 0
      else (v.WriteMs * 1000) % 2 ^ 64 / v.Writes) := by
    by_cases h : v.Writes = 0 <;> simp [Stats.WriteLatency, div64, mul64, U64, h]
  refine ⟨hL, hR, hW, ?_, ?_, ?_⟩
  · intro q hne hq
    rw [hL, if_neg hne] at hq
    rw [← Option.some.inj hq]
    exact div_floor_bounds _ _ hne
  · intro q hne hq
    rw [hR, if_neg hne] at hq
    rw [← Option.some.inj hq]
    exact div_floor_bounds _ _ hne
  · intro q hne hq
    rw [hW, if_neg hne] at hq
    rw [← Option.some.inj hq]
    exact div_floor_bounds _ _ hne

/-- The witness of C4: `Reads = 0`, `ReadMs = 500` gives a read latency of
`0`; `Writes = 4`, `WriteMs = 8` gives a write latency of `2000`; `Writes = 3`,
`WriteMs = 2` gives `666`, the floor of `2000 / 3`. -/
theorem latency_eq_witness :
    Stats.ReadLatency ⟨0, 500, 0, 0, 0, 0, 0, 0⟩ = some 0 ∧
    Stats.WriteLatency ⟨0, 0, 0, 4, 8, 0, 0, 0⟩ = some 2000 ∧
    Stats.WriteLatency ⟨0, 0, 0, 3, 2, 0, 0, 0⟩ = some 666 ∧
    (666 * 3 ≤ (2 * 1000) % 2 ^ 64 ∧ (2 * 1000) % 2 ^ 64 < (666 + 1) * 3) :=
  ⟨(latency_eq ⟨0, 500, 0, 0, 0, 0, 0, 0⟩).2.1,
   (latency_eq ⟨0, 0, 0, 4, 8, 0, 0, 0⟩).2.2.1,
   (latency_eq ⟨0, 0, 0, 3, 2, 0, 0, 0⟩).2.2.1,
   (latency_eq ⟨0, 0, 0, 3, 2, 0, 0, 0⟩).2.2.2.2.2 666 (by decide) (by decide)⟩

/-- C5: no metric ever divides by zero.  For arbitrary counters each of
`WriteThroughput`, `ReadThroughput`, `Iops`, `Latency`, `ReadLatency` and
`WriteLatency` returns a value (the faulting result `none` of `div64` is never
reached), also when `IntervalMs`, `Reads` or `Writes` is `0` and when the
64-bit sum `Writes + Reads` wraps to `0`. -/
theorem metrics_no_division_fault (v : Stats) :
    (∃ r, v.WriteThroughput = some r) ∧ (∃ r, v.ReadThroughput = some r) ∧
    (∃ r, v.Iops = some r) ∧ (∃ r, v.Latency = some r) ∧
    (∃ r, v.ReadLatency = some r) ∧ (∃ r, v.WriteLatency = some r) ∧
    Stats.Latency ⟨1, 0, 0, 2 ^ 64 - 1, 0, 0, 7, 0⟩ = some 0 := by
  refine ⟨?_, ?_, ?_, ?_, ?_, ?_, ?_⟩
  · by_cases h : v.IntervalMs / 1000 = 0 <;> simp [Stats.WriteThroughput, toSec, div64, h]
  · by_cases h : v.IntervalMs / 1000 = 0 <;> simp [Stats.ReadThroughput, toSec, div64, h]
  · by_cases h : v.IntervalMs / 1000 = 0 <;> simp [Stats.Iops, toSec, div64, h]
  · by_cases h : add64 v.Writes v.Reads = 0 <;> simp [Stats.Latency, div64, h]
  · by_cases h : v.Reads = 0 <;> simp [Stats.ReadLatency, div64, h]
  · by_cases h : v.Writes = 0 <;> simp [Stats.WriteLatency, div64, h]
  · decide

/-- C20: `Latency` is exact as long as nothing wraps.  When
`IoMs * 1000 < 2 ^ 64` and `0 < Writes + Reads < 2 ^ 64` over the natural
numbers, it is the floor of `IoMs * 1000 / (Writes + Reads)`; in every case it
is computed from the product and the sum reduced modulo `2 ^ 64`, so it is `0`
for counters whose sum is `2 ^ 64`, and `0` as well for a product that is a
multiple of `2 ^ 64`. -/
theorem latency_exact_of_no_wrap (v : Stats) :
    (v.IoMs * 1000 < 2 ^ 64 → 0 < v.Writes + v.Reads → v.Writes + v.Reads < 2 ^ 64 →
      v.Latency = some (v.IoMs * 1000 / (v.Writes + v.Reads))) ∧
    (v.Latency = some (if (v.Writes + v.Reads) % 2 ^ 64 = 0 then 0
      else (v.IoMs * 1000) % 2 ^ 64 / ((v.Writes + v.Reads) % 2 ^ 64))) ∧
    (v.Writes + v.Reads = 2 ^ 64 → v.Latency = some 0) ∧
    (v.IoMs * 1000 % 2 ^ 64 = 0 → v.Latency = some 0) := by
  have hL : v.Latency = some (if (v.Writes + v.Reads) % 2 ^ 64 = 0 then 0
      else (v.IoMs * 1000) % 2 ^ 64 / ((v.Writes + v.Reads) % 2 ^ 64)) := by
    simp only [Stats.Latency, div64, add64, mul64, U64]
    split_ifs <;> rfl
  refine ⟨?_, hL, ?_, ?_⟩
  · intro hprod hpos hsum
    have hne : (v.Writes + v.Reads) % 2 ^ 64 ≠ 0 := by
      rw [Nat.mod_eq_of_lt hsum]
      exact Nat.pos_iff_ne_zero.mp hpos
    rw [hL, if_neg hne, Nat.mod_eq_of_lt hsum, Nat.mod_eq_of_lt hprod]
  · intro hsum
    rw [hL, hsum, Nat.mod_self, if_pos rfl]
  · intro hprod
    rw [hL, hprod, Nat.zero_div]
    split_ifs <;> rfl

/-- The witness of C20: `IoMs = 7` over `3 + 4` operations gives `1000`;
`Writes = 2 ^ 64 - 1` and `Reads = 1` sum to `2 ^ 64` and give `0`; `IoMs =
2 ^ 63` over one write gives `0`, the product being `500 * 2 ^ 64`. -/
theorem latency_exact_of_no_wrap_witness :
    Stats.Latency ⟨3, 0, 0, 4, 0, 0, 7, 0⟩ = some (7 * 1000 / (4 + 3)) ∧
    Stats.Latency ⟨1, 0, 0, 2 ^ 64 - 1, 0, 0, 7, 0⟩ = some 0 ∧
    Stats.Latency ⟨0, 0, 0, 1, 0, 0, 2 ^ 63, 0⟩ = some 0 ∧
    (2 ^ 63 * 1000 / (1 + 0) ≠ 0) :=
  ⟨(latency_exact_of_no_wrap ⟨3, 0, 0, 4, 0, 0, 7, 0⟩).1 (by decide) (by decide) (by decide),
   (latency_exact_of_no_wrap ⟨1, 0, 0, 2 ^ 64 - 1, 0, 0, 7, 0⟩).2.2.1 (by decide),
   (latency_exact_of_no_wrap ⟨0, 0, 0, 1, 0, 0, 2 ^ 63, 0⟩).2.2.2 (by decide),
   by decide⟩

/-! ## Volume predicates -/

/-- The byte length of a string is zero exactly for the empty string. -/
theorem strLen_eq_zero_iff (s : String) : strLen s = 0 ↔ s = "" := by
  cases s with
  | mk l =>
    cases l with
    | nil => simp [strLen, String.utf8ByteSize, String.utf8ByteSize.go]
    | cons c cs =>
      have hc := Char.utf8Size_pos c
      simp only [strLen, String.utf8ByteSize, String.utf8ByteSize.go]
      constructor
      · intro h; omega
      · intro h; exact absurd (congrArg String.data h) (by simp)

/-- The test `len(parent) != 0` of the two predicates, as a proposition. -/
theorem strLen_bne_zero (s : String) : (strLen s != 0) = true ↔ s ≠ "" := by
  rw [bne_iff_ne, Ne, strLen_eq_zero_iff]

/-- C6: `IsClone` holds iff `Source` is present, its `Parent` is non-empty and
`Readonly` is false; `IsSnapshot` holds iff `Source` is present, its `Parent`
is non-empty and `Readonly` is true.  So the two are never both true,
flipping `Readonly` on a volume with a non-empty parent swaps the two
results, and a volume without `Source`, or with an empty `Parent`, yields
false for both. -/
theorem isClone_isSnapshot_iff (v : Volume) :
    (v.IsClone = true ↔
      ∃ src, v.Source = some src ∧ src.Parent ≠ "" ∧ v.Readonly = false) ∧
    (v.IsSnapshot = true ↔
      ∃ src, v.Source = some src ∧ src.Parent ≠ "" ∧ v.Readonly = true) ∧
    ¬ (v.IsClone = true ∧ v.IsSnapshot = true) ∧
    (∀ src, v.Source = some src → src.Parent ≠ "" →
      Volume.IsClone { v with Readonly := !v.Readonly } = v.IsSnapshot ∧
      Volume.IsSnapshot { v with Readonly := !v.Readonly } = v.IsClone ∧
      v.IsClone ≠ v.IsSnapshot) ∧
    (v.Source = none → v.IsClone = false ∧ v.IsSnapshot = false) ∧
    (∀ src, v.Source = some src → src.Parent = "" →
      v.IsClone = false ∧ v.IsSnapshot = false) := by
  obtain ⟨id, loc, source, ro, rsets⟩ := v
  cases source with
  | none => simp [Volume.IsClone, Volume.IsSnapshot]
  | some src =>
    by_cases hp : src.Parent = ""
    · have h0 : strLen "" = 0 := (strLen_eq_zero_iff "").mpr rfl
      simp [Volume.IsClone, Volume.IsSnapshot, h0, hp]
    · have h1 : (strLen src.Parent != 0) = true := (strLen_bne_zero _).mpr hp
      cases ro <;> simp [Volume.IsClone, Volume.IsSnapshot, h1, hp]

/-- The witness of C6: a writable volume with parent `p1` is a clone and not a
snapshot, and flipping `Readonly` swaps the two results. -/
theorem isClone_isSnapshot_iff_witness :
    Volume.IsClone ⟨"v", none, some ⟨"p1"⟩, false, []⟩ = true ∧
    Volume.IsSnapshot ⟨"v", none, some ⟨"p1"⟩, false, []⟩ = false ∧
    Volume.IsClone ⟨"v", none, some ⟨"p1"⟩, true, []⟩ = false ∧
    Volume.IsSnapshot ⟨"v", none, some ⟨"p1"⟩, true, []⟩ = true ∧
    Volume.IsClone ⟨"v", none, none, false, []⟩ = false ∧
    Volume.IsSnapshot ⟨"v", none, none, false, []⟩ = false := by
  have h := (isClone_isSnapshot_iff ⟨"v", none, some ⟨"p1"⟩, false, []⟩).2.2.2.1
    ⟨"p1"⟩ rfl (by decide)
  have hc : Volume.IsClone ⟨"v", none, some ⟨"p1"⟩, false, []⟩ = true := by decide
  have hs : Volume.IsSnapshot ⟨"v", none, some ⟨"p1"⟩, false, []⟩ = false := by decide
  have hn := (isClone_isSnapshot_iff ⟨"v", none, none, false, []⟩).2.2.2.2.1 rfl
  exact ⟨hc, hs, h.1.trans hs, h.2.1.trans hc, hn.1, hn.2⟩

/-- The inner scan finds `mid` exactly when it is one of the nodes. -/
theorem containsNode_iff (nodes : List String) (mid : String) :
    containsNode nodes mid = true ↔ mid ∈ nodes := by
  induction nodes with
  | nil => simp [containsNode]
  | cons node rest ih =>
    by_cases h : node = mid
    · simp [containsNode, h]
    · have h2 : ¬ mid = node := fun e => h e.symm
      simp [containsNode, h, h2, ih]

/-- On replica sets none of which is `nil`, the outer scan returns, and it
finds `mid` exactly when some replica set lists it. -/
theorem containsRsets_of_no_nil (rsets : List (Option ReplicaSet)) (mid : String)
    (hnn : ∀ x ∈ rsets, x ≠ none) :
    (containsRsets rsets mid = some true ↔ ∃ rset, some rset ∈ rsets ∧ mid ∈ rset.Nodes) ∧
    (containsRsets rsets mid = some false ↔
      ¬ ∃ rset, some rset ∈ rsets ∧ mid ∈ rset.Nodes) ∧
    containsRsets rsets mid ≠ none := by
  induction rsets with
  | nil => simp [containsRsets]
  | cons x rest ih =>
    have hrest : ∀ y ∈ rest, y ≠ none := fun y hy => hnn y (List.mem_cons_of_mem _ hy)
    obtain ⟨ih1, ih2, ih3⟩ := ih hrest
    cases x with
    | none => exact absurd rfl (hnn none (List.mem_cons_self _ _))
    | some rset =>
      by_cases h : containsNode rset.Nodes mid = true
      · have hm := (containsNode_iff _ _).mp h
        have hex : ∃ r, some r ∈ some rset :: rest ∧ mid ∈ r.Nodes :=
          ⟨rset, List.mem_cons_self _ _, hm⟩
        have hc : containsRsets (some rset :: rest) mid = some true := by
          rw [containsRsets, if_pos h]
        rw [hc]
        refine ⟨⟨fun _ => hex, fun _ => rfl⟩, ⟨?_, fun e => absurd hex e⟩, ?_⟩
        · intro e
          cases e
        · intro e
          cases e
      · have hm : mid ∉ rset.Nodes := fun hm => h ((containsNode_iff _ _).mpr hm)
        have hiff : (∃ r, some r ∈ some rset :: rest ∧ mid ∈ r.Nodes) ↔
            ∃ r, some r ∈ rest ∧ mid ∈ r.Nodes := by
          constructor
          · rintro ⟨r, hr, hmr⟩
            rcases List.mem_cons.mp hr with e | hr'
            · cases e
              exact absurd hmr hm
            · exact ⟨r, hr', hmr⟩
          · rintro ⟨r, hr, hmr⟩
            exact ⟨r, List.mem_cons_of_mem _ hr, hmr⟩
        have hc : containsRsets (some rset :: rest) mid = containsRsets rest mid := by
          rw [containsRsets, if_neg h]
        rw [hc, hiff]
        exact ⟨ih1, ih2, ih3⟩

/-- The outer scan panics exactly when it reaches a `nil` element: when one
stands in the slice behind replica sets that do not list `mid`. -/
theorem containsRsets_eq_none_iff (rsets : List (Option ReplicaSet)) (mid : String) :
    containsRsets rsets mid = none ↔
      ∃ pre post, rsets = pre ++ none :: post ∧
        ∀ x ∈ pre, ∃ rset, x = some rset ∧ mid ∉ rset.Nodes := by
  induction rsets with
  | nil =>
    have hc : containsRsets [] mid = some false := by rw [containsRsets]
    rw [hc]
    constructor
    · intro h
      cases h
    · rintro ⟨pre, post, h, _⟩
      exact absurd h (by simp)
  | cons x rest ih =>
    cases x with
    | none =>
      have hc : containsRsets (none :: rest) mid = none := by rw [containsRsets]
      rw [hc]
      exact ⟨fun _ => ⟨[], rest, rfl, fun x hx => absurd hx (List.not_mem_nil x)⟩,
        fun _ => rfl⟩
    | some rset =>
      by_cases h : containsNode rset.Nodes mid = true
      · have hm := (containsNode_iff _ _).mp h
        have hc : containsRsets (some rset :: rest) mid = some true := by
          rw [containsRsets, if_pos h]
        rw [hc]
        constructor
        · intro e
          cases e
        · rintro ⟨pre, post, hsplit, hpre⟩
          cases pre with
          | nil => simp at hsplit
          | cons y pre' =>
            simp only [List.cons_append, List.cons.injEq] at hsplit
            obtain ⟨r, hr, hnot⟩ := hpre y (List.mem_cons_self _ _)
            rw [← hsplit.1] at hr
            cases hr
            exact absurd hm hnot
      · have hm : mid ∉ rset.Nodes := fun hm => h ((containsNode_iff _ _).mpr hm)
        have hc : containsRsets (some rset :: rest) mid = containsRsets rest mid := by
          rw [containsRsets, if_neg h]
        rw [hc, ih]
        constructor
        · rintro ⟨pre, post, hsplit, hpre⟩
          refine ⟨some rset :: pre, post, by rw [hsplit]; rfl, ?_⟩
          intro x hx
          rcases List.mem_cons.mp hx with e | hx'
          · exact ⟨rset, e, hm⟩
          · exact hpre x hx'
        · rintro ⟨pre, post, hsplit, hpre⟩
          cases pre with
          | nil => simp at hsplit
          | cons y pre' =>
            simp only [List.cons_append, List.cons.injEq] at hsplit
            exact ⟨pre', post, hsplit.2, fun x hx => hpre x (List.mem_cons_of_mem _ hx)⟩

/-- On a volume none of whose replica sets is `nil`, `Contains(mid)` returns
true iff `mid` is an element of the `Nodes` of at least one replica set, and
false otherwise, in particular when there are no replica sets or all of them
are empty. -/
theorem contains_of_no_nil (m : Volume) (mid : String)
    (hnn : ∀ x ∈ m.ReplicaSets, x ≠ none) :
    (m.Contains mid = some true ↔ ∃ rset, some rset ∈ m.ReplicaSets ∧ mid ∈ rset.Nodes) ∧
    (m.Contains mid = some false ↔
      ¬ ∃ rset, some rset ∈ m.ReplicaSets ∧ mid ∈ rset.Nodes) ∧
    ((∀ rset, some rset ∈ m.ReplicaSets → rset.Nodes = []) → m.Contains mid = some false) := by
  obtain ⟨h1, h2, _⟩ := containsRsets_of_no_nil m.ReplicaSets mid hnn
  refine ⟨h1, h2, ?_⟩
  intro hall
  apply h2.mpr
  rintro ⟨rset, hr, hm⟩
  rw [hall rset hr] at hm
  exact absurd hm (List.not_mem_nil _)

/-- C7, at the failing input: the node `n1` is an element of the `Nodes` of a
replica set of the volume, so `Contains("n1")` should return true; but a `nil`
replica set stands before it, the scan reads its `Nodes` and panics, and
nothing is returned.  Without the `nil` element, or with the `nil` element
behind the replica set that lists `n1`, the same call returns true. -/
theorem contains_panics_on_nil_replicaSet :
    (∃ rset, some rset ∈ ([none, some ⟨["n1"]⟩] : List (Option ReplicaSet)) ∧
      "n1" ∈ rset.Nodes) ∧
    Volume.Contains ⟨"v", none, none, false, [none, some ⟨["n1"]⟩]⟩ "n1" = none ∧
    Volume.Contains ⟨"v", none, none, false, [some ⟨["n1"]⟩]⟩ "n1" = some true ∧
    Volume.Contains ⟨"v", none, none, false, [some ⟨["n1"]⟩, none]⟩ "n1" = some true ∧
    Volume.Contains ⟨"v", none, none, false, [some ⟨["n2"]⟩, none]⟩ "n1" = none :=
  ⟨⟨⟨["n1"]⟩, by decide, by decide⟩, by decide, by decide, by decide, by decide⟩

/-- C17: `DisplayId` is `Locator.Name`, then ` (`, then `Id`, then `)` when the
locator is present, also for an empty name, and `Id` alone when the locator is
absent. -/
theorem displayId_eq (v : Volume) :
    (∀ loc, v.Locator = some loc → v.DisplayId = loc.Name ++ " (" ++ v.Id ++ ")") ∧
    (v.Locator = none → v.DisplayId = v.Id) := by
  constructor
  · intro loc h
    simp [Volume.DisplayId, h]
  · intro h
    simp [Volume.DisplayId, h]

/-- The witness of C17: a named volume, one with an empty name, and one
without locator. -/
theorem displayId_eq_witness :
    Volume.DisplayId ⟨"123", some ⟨"vol1"⟩, none, false, []⟩ = "vol1 (123)" ∧
    Volume.DisplayId ⟨"123", some ⟨""⟩, none, false, []⟩ = " (123)" ∧
    Volume.DisplayId ⟨"123", none, none, false, []⟩ = "123" :=
  ⟨((displayId_eq ⟨"123", some ⟨"vol1"⟩, none, false, []⟩).1 ⟨"vol1"⟩ rfl).trans (by decide),
   ((displayId_eq ⟨"123", some ⟨""⟩, none, false, []⟩).1 ⟨""⟩ rfl).trans (by decide),
   (displayId_eq ⟨"123", none, none, false, []⟩).2 rfl⟩

/-! ## VolumeSpec.Copy -/

/-- Inserting the entries of a duplicate-free list, one after the other, into
a map that has none of their keys stacks them on top of it. -/
theorem foldl_insert_entries (l : List (Sigma fun _ : String => String))
    (acc : GoMap String String) (hl : l.NodupKeys) (hd : ∀ k ∈ l.keys, k ∉ acc) :
    (l.foldl (fun m e => m.insert e.1 e.2) acc).entries = l.reverse ++ acc.entries := by
  induction l generalizing acc with
  | nil => simp
  | cons e t ih =>
    obtain ⟨het, ht⟩ := List.nodupKeys_cons.mp hl
    have he : e.1 ∉ acc := hd e.1 (by simp [List.keys])
    have hacc : (acc.insert e.1 e.2).entries = e :: acc.entries := by
      rw [AList.insert_entries_of_neg he]
    have hd2 : ∀ k ∈ t.keys, k ∉ acc.insert e.1 e.2 := by
      intro k hk hmem
      rcases (AList.mem_insert acc).mp hmem with h | h
      · exact het (h ▸ hk)
      · exact hd k (by simp [List.keys] at hk ⊢; exact Or.inr hk) h
    rw [List.foldl_cons, ih _ ht hd2, hacc]
    simp

/-- The loop of `Copy` builds, in a fresh empty map, the entries of the source
in reverse order. -/
theorem foldl_insert_empty (m : GoMap String String) :
    (m.entries.foldl (fun a e => a.insert e.1 e.2) (∅ : GoMap String String)).entries =
      m.entries.reverse := by
  have h := foldl_insert_entries m.entries ∅ m.nodupKeys (fun k _ => AList.not_mem_empty k)
  simpa using h

/-- The loop of `Copy` only touches the map object it fills. -/
theorem copyLabels_eq (h : Heap) (pre : List (GoMap String String)) (m : GoMap String String)
    (hm : h.maps = pre ++ [m]) (es : List (Sigma fun _ : String => String)) :
    copyLabels h pre.length es =
      { h with maps := pre ++ [es.foldl (fun a e => a.insert e.1 e.2) m] } := by
  induction es generalizing h m with
  | nil => simp [copyLabels, ← hm]
  | cons e t ih =>
    have hr : h.readMap pre.length = m := by
      simp [Heap.readMap, hm]
    have hstep : h.mapAssign pre.length e.1 e.2 = { h with maps := pre ++ [m.insert e.1 e.2] } := by
      simp [Heap.mapAssign, hr, hm]
    have := ih (h.mapAssign pre.length e.1 e.2) (m.insert e.1 e.2) (by rw [hstep])
    simp only [copyLabels, List.foldl_cons] at this ⊢
    rw [this, hstep]


/-- A valid slice reads as many elements as its length. -/
theorem readSlice_length (h : Heap) (sl : Slice) (hv : h.validSlice sl) :
    (h.readSlice sl).length = sl.len := by
  cases sl with
  | nil => rfl
  | mk a off len =>
    obtain ⟨_, hb⟩ := hv
    simp only [Heap.readSlice, Slice.len, List.length_take, List.length_drop]
    omega

/-- Reading a valid slice does not depend on arrays allocated later. -/
theorem readSlice_append (h : Heap) (sl : Slice) (hv : h.validSlice sl)
    (maps : List (GoMap String String)) (rsets : List ReplicaSetCell)
    (more : List (List String)) :
    Heap.readSlice ⟨maps, rsets, h.arrays ++ more⟩ sl = h.readSlice sl := by
  cases sl with
  | nil => rfl
  | mk a off len =>
    obtain ⟨ha, _⟩ := hv
    simp only [Heap.readSlice, List.getElem?_append_left ha]

/-- What `Copy` returns and the heap it leaves: the old heap with one fresh
map, one fresh `ReplicaSet` and one fresh array appended, as far as the source
has them. -/
theorem copy_eq {σ : Type} (h : Heap) (s : VolumeSpec σ) (hv : s.valid h) :
    VolumeSpec.Copy h s =
      (⟨s.scalars, s.VolumeLabels.map fun _ => h.maps.length,
          s.ReplicaSet.map fun _ => h.rsets.length⟩,
        ⟨h.maps ++ s.VolumeLabels.toList.map fun a => copiedMap (h.readMap a),
          h.rsets ++ s.ReplicaSet.toList.map fun p =>
            ⟨.mk h.arrays.length 0 (h.readRset p).Nodes.len⟩,
          h.arrays ++ s.ReplicaSet.toList.map fun p =>
            h.readSlice (h.readRset p).Nodes⟩) := by
  obtain ⟨sc, vl, rs⟩ := s
  obtain ⟨hvl, hrs⟩ := hv
  -- the heap after the labels are copied
  have hstep1 : ∀ a, vl = some a →
      copyLabels (h.makeMap).2 (h.makeMap).1 (((h.makeMap).2).readMap a).entries =
        ⟨h.maps ++ [copiedMap (h.readMap a)], h.rsets, h.arrays⟩ := by
    intro a ha
    have hlt : a < h.maps.length := hvl a ha
    have hread : ((h.makeMap).2).readMap a = h.readMap a := by
      simp [Heap.readMap, Heap.makeMap, List.getElem?_append_left hlt]
    rw [hread]
    have := copyLabels_eq (h.makeMap).2 h.maps ∅ rfl (h.readMap a).entries
    simpa [Heap.makeMap, copiedMap] using this
  -- the heap after the replica set is copied, from any heap with the old
  -- replica sets and arrays
  have hstep2 : ∀ p, rs = some p → ∀ maps : List (GoMap String String),
      let h0 : Heap := ⟨maps, h.rsets, h.arrays⟩
      let h1 := (h0.makeSlice (h0.readRset p).Nodes.len).2
      let nodes := (h0.makeSlice (h0.readRset p).Nodes.len).1
      let h2 := (h1.newRset ⟨nodes⟩).2
      let q := (h1.newRset ⟨nodes⟩).1
      q = h.rsets.length ∧
      h2.copy (h2.readRset q).Nodes (h2.readRset p).Nodes =
        ⟨maps, h.rsets ++ [⟨.mk h.arrays.length 0 (h.readRset p).Nodes.len⟩],
          h.arrays ++ [h.readSlice (h.readRset p).Nodes]⟩ := by
    intro p hp maps
    obtain ⟨hplt, hsl⟩ := hrs p hp
    have hlen := readSlice_length h _ hsl
    have hrd := readSlice_append h _ hsl maps
      (h.rsets ++ [⟨.mk h.arrays.length 0 (h.readRset p).Nodes.len⟩])
      [List.replicate (h.readRset p).Nodes.len ""]
    refine ⟨rfl, ?_⟩
    simp only [Heap.makeSlice, Heap.newRset, Heap.readRset, List.getElem?_concat_length,
      List.getElem?_append_left hplt, Option.getD_some, Heap.copy]
    simp only [Heap.readRset] at hrd hlen
    rw [hrd]
    simp [hlen, List.take_of_length_le]
  cases vl with
  | none =>
    cases rs with
    | none => simp [VolumeSpec.Copy]
    | some p =>
      refine Prod.ext rfl ?_
      simp only [Option.toList_none, List.map_nil, List.append_nil, Option.toList_some,
        List.map_cons]
      exact (hstep2 p rfl h.maps).2
  | some a =>
    have h1 := hstep1 a rfl
    cases rs with
    | none =>
      refine Prod.ext rfl ?_
      simp only [Option.toList_none, List.map_nil, List.append_nil, Option.toList_some,
        List.map_cons]
      exact h1
    | some p =>
      have h2 := (hstep2 p rfl (h.maps ++ [copiedMap (h.readMap a)])).2
      simp only [VolumeSpec.Copy]
      rw [h1]
      refine Prod.ext rfl ?_
      simp only [Option.toList_some, List.map_cons, List.map_nil]
      exact h2


/-- What one mutation through `x` can change: no `ReplicaSet` struct, no map
object but the one `x` holds, no array but the one under the nodes of `x`. -/
theorem mutate_frame {σ : Type} (h h2 : Heap) (x : VolumeSpec σ) (m : Mutation)
    (hm : x.mutate h m = some h2) :
    h2.rsets = h.rsets ∧
    (∀ j, (∀ a, x.VolumeLabels = some a → a ≠ j) → h2.maps[j]? = h.maps[j]?) ∧
    (∀ j, (∀ p a off len, x.ReplicaSet = some p → (h.readRset p).Nodes = .mk a off len →
      a ≠ j) → h2.arrays[j]? = h.arrays[j]?) := by
  cases m with
  | setLabel k v =>
    cases hl : x.VolumeLabels with
    | none => simp [VolumeSpec.mutate, VolumeSpec.setLabel, hl] at hm
    | some a =>
      simp only [VolumeSpec.mutate, VolumeSpec.setLabel, hl, Option.some.injEq] at hm
      subst hm
      refine ⟨rfl, ?_, fun _ _ => rfl⟩
      intro j hj
      exact List.getElem?_set_ne (hj a rfl)
  | deleteLabel k =>
    cases hl : x.VolumeLabels with
    | none =>
      simp only [VolumeSpec.mutate, VolumeSpec.deleteLabel, hl, Option.some.injEq] at hm
      subst hm
      exact ⟨rfl, fun _ _ => rfl, fun _ _ => rfl⟩
    | some a =>
      simp only [VolumeSpec.mutate, VolumeSpec.deleteLabel, hl, Option.some.injEq] at hm
      subst hm
      refine ⟨rfl, ?_, fun _ _ => rfl⟩
      intro j hj
      exact List.getElem?_set_ne (hj a rfl)
  | setNode i v =>
    cases hr : x.ReplicaSet with
    | none => simp [VolumeSpec.mutate, VolumeSpec.setNode, hr] at hm
    | some p =>
      simp only [VolumeSpec.mutate, VolumeSpec.setNode, hr] at hm
      cases hs : (h.readRset p).Nodes with
      | nil => simp [hs, Heap.sliceSet] at hm
      | mk a off len =>
        rw [hs] at hm
        simp only [Heap.sliceSet] at hm
        split at hm
        · simp only [Option.some.injEq] at hm
          subst hm
          refine ⟨rfl, fun _ _ => rfl, ?_⟩
          intro j hj
          exact List.getElem?_set_ne (hj p a off len rfl hs)
        · exact absurd hm (by simp)

/-- The frame of a whole sequence of mutations through `x`. -/
theorem mutateAll_frame {σ : Type} (x : VolumeSpec σ) (ms : List Mutation) (h h2 : Heap)
    (hm : x.mutateAll h ms = some h2) :
    h2.rsets = h.rsets ∧
    (∀ j, (∀ a, x.VolumeLabels = some a → a ≠ j) → h2.maps[j]? = h.maps[j]?) ∧
    (∀ j, (∀ p a off len, x.ReplicaSet = some p → (h.readRset p).Nodes = .mk a off len →
      a ≠ j) → h2.arrays[j]? = h.arrays[j]?) := by
  induction ms generalizing h with
  | nil =>
    simp only [VolumeSpec.mutateAll, Option.some.injEq] at hm
    subst hm
    exact ⟨rfl, fun _ _ => rfl, fun _ _ => rfl⟩
  | cons m ms ih =>
    simp only [VolumeSpec.mutateAll] at hm
    cases h1eq : x.mutate h m with
    | none => simp [h1eq] at hm
    | some h1 =>
      rw [h1eq] at hm
      obtain ⟨hr1, hm1, ha1⟩ := mutate_frame h h1 x m h1eq
      obtain ⟨hr2, hm2, ha2⟩ := ih h1 hm
      have hrd : ∀ p, h1.readRset p = h.readRset p := by
        intro p; simp [Heap.readRset, hr1]
      refine ⟨hr2.trans hr1, ?_, ?_⟩
      · intro j hj
        rw [hm2 j hj, hm1 j hj]
      · intro j hj
        rw [ha2 j (fun p a off len hp hs => hj p a off len hp (hrd p ▸ hs)), ha1 j hj]

/-- Mutations through `x` are not observable through a spec `y` separated
from it. -/
theorem mutateAll_invisible {σ : Type} (x y : VolumeSpec σ) (ms : List Mutation)
    (h h2 : Heap) (hsep : separated h x y) (hm : x.mutateAll h ms = some h2) :
    y.labels h2 = y.labels h ∧ y.replicaSet h2 = y.replicaSet h := by
  obtain ⟨hr, hmaps, harr⟩ := mutateAll_frame x ms h h2 hm
  obtain ⟨hs1, hs2⟩ := hsep
  constructor
  · cases hl : y.VolumeLabels with
    | none => simp [VolumeSpec.labels, hl]
    | some d =>
      have := hmaps d (fun a ha => hs1 a d ha hl)
      simp [VolumeSpec.labels, hl, Heap.readMap, this]
  · cases hq : y.ReplicaSet with
    | none => simp [VolumeSpec.replicaSet, hq]
    | some q =>
      have hrd : h2.readRset q = h.readRset q := by simp [Heap.readRset, hr]
      simp only [VolumeSpec.replicaSet, hq, Option.map_some', hrd]
      cases hsl : (h.readRset q).Nodes with
      | nil => rfl
      | mk a2 o2 l2 =>
        have := harr a2 (fun p a off len hp hs => hs2 p q a off len a2 o2 l2 hp hq hs hsl)
        simp [Heap.readSlice, this]


/-- Separation does not depend on the order of the two specs. -/
theorem separated_symm {σ : Type} (h : Heap) (x y : VolumeSpec σ) (hs : separated h x y) :
    separated h y x :=
  ⟨fun a d ha hd e => hs.1 d a hd ha e.symm,
   fun p q a1 o1 l1 a2 o2 l2 hp hq h1 h2 e => hs.2 q p a2 o2 l2 a1 o1 l1 hq hp h2 h1 e.symm⟩

/-- The copy of a map has the entries of the map, in some order, and so the
same value under every key. -/
theorem copiedMap_perm (m : GoMap String String) :
    (copiedMap m).entries.Perm m.entries ∧ ∀ k, (copiedMap m).lookup k = m.lookup k := by
  have hp : (copiedMap m).entries.Perm m.entries := by
    rw [copiedMap, foldl_insert_empty]
    exact List.reverse_perm _
  exact ⟨hp, fun _ => AList.perm_lookup hp⟩

/-- `Copy` leaves what the source holds as it was. -/
theorem copy_preserves_source {σ : Type} (h : Heap) (s : VolumeSpec σ) (hv : s.valid h) :
    s.labels (VolumeSpec.Copy h s).2 = s.labels h ∧
    s.replicaSet (VolumeSpec.Copy h s).2 = s.replicaSet h := by
  rw [copy_eq h s hv]
  obtain ⟨hvl, hrs⟩ := hv
  constructor
  · cases hl : s.VolumeLabels with
    | none => simp [VolumeSpec.labels, hl]
    | some a =>
      have hlt := hvl a hl
      simp [VolumeSpec.labels, hl, Heap.readMap, List.getElem?_append_left hlt]
  · cases hp : s.ReplicaSet with
    | none => simp [VolumeSpec.replicaSet, hp]
    | some p =>
      obtain ⟨hplt, hsl⟩ := hrs p hp
      have hrd := readSlice_append h _ hsl (h.maps ++ s.VolumeLabels.toList.map fun a =>
        copiedMap (h.readMap a))
        (h.rsets ++ [⟨.mk h.arrays.length 0 (h.readRset p).Nodes.len⟩])
        [h.readSlice (h.readRset p).Nodes]
      simp only [VolumeSpec.replicaSet, hp, Option.map_some', Option.toList_some, List.map_cons,
        List.map_nil, Heap.readRset, List.getElem?_append_left hplt]
      simp only [Heap.readRset] at hrd
      rw [hrd]

/-- After `Copy`, the source and the copy are separated. -/
theorem copy_separated {σ : Type} (h : Heap) (s : VolumeSpec σ) (hv : s.valid h) :
    separated (VolumeSpec.Copy h s).2 s (VolumeSpec.Copy h s).1 := by
  rw [copy_eq h s hv]
  obtain ⟨hvl, hrs⟩ := hv
  constructor
  · intro a d ha hd
    have hlt := hvl a ha
    simp only [ha, Option.map_some', Option.some.injEq] at hd
    omega
  · intro p q a1 o1 l1 a2 o2 l2 hp hq h1 h2
    obtain ⟨hplt, hsl⟩ := hrs p hp
    simp only [hp, Option.map_some', Option.some.injEq] at hq
    subst hq
    simp only [hp, Option.toList_some, List.map_cons, List.map_nil, Heap.readRset,
      List.getElem?_append_left hplt, List.getElem?_concat_length, Option.getD_some,
      Slice.mk.injEq] at h1 h2
    simp only [Heap.readRset] at hsl
    rw [h1] at hsl
    have := hsl.1
    omega

/-- C8: right after `c := s.Copy()`, the copy is structurally equal to the
source: the scalar fields are equal, `VolumeLabels` is present in the copy
exactly when it is in the source, with the same key/value pairs, and
`ReplicaSet` is present exactly when it is in the source, with an equal
`Nodes` sequence. -/
theorem copy_structurally_equal {σ : Type} (h : Heap) (s : VolumeSpec σ) (hv : s.valid h) :
    (VolumeSpec.Copy h s).1.scalars = s.scalars ∧
    ((VolumeSpec.Copy h s).1.VolumeLabels.isSome = s.VolumeLabels.isSome) ∧
    (∀ m, s.labels h = some m →
      ∃ m', (VolumeSpec.Copy h s).1.labels (VolumeSpec.Copy h s).2 = some m' ∧
        m'.entries.Perm m.entries ∧ ∀ k, m'.lookup k = m.lookup k) ∧
    (s.labels h = none → (VolumeSpec.Copy h s).1.labels (VolumeSpec.Copy h s).2 = none) ∧
    ((VolumeSpec.Copy h s).1.ReplicaSet.isSome = s.ReplicaSet.isSome) ∧
    (VolumeSpec.Copy h s).1.replicaSet (VolumeSpec.Copy h s).2 = s.replicaSet h := by
  rw [copy_eq h s hv]
  obtain ⟨hvl, hrs⟩ := hv
  refine ⟨rfl, by cases s.VolumeLabels <;> rfl, ?_, ?_, by cases s.ReplicaSet <;> rfl, ?_⟩
  · intro m hm
    cases hl : s.VolumeLabels with
    | none => simp [VolumeSpec.labels, hl] at hm
    | some a =>
      simp only [VolumeSpec.labels, hl, Option.map_some', Option.some.injEq] at hm
      subst hm
      refine ⟨copiedMap (h.readMap a), ?_, copiedMap_perm _⟩
      simp [VolumeSpec.labels, Heap.readMap, hl]
  · intro hn
    cases hl : s.VolumeLabels with
    | none => simp [VolumeSpec.labels, hl]
    | some a => simp [VolumeSpec.labels, hl] at hn
  · cases hp : s.ReplicaSet with
    | none => simp [VolumeSpec.replicaSet, hp]
    | some p =>
      obtain ⟨hplt, hsl⟩ := hrs p hp
      have hlen := readSlice_length h _ hsl
      simp [VolumeSpec.replicaSet, Heap.readRset, Heap.readSlice, hp]
      simp only [Heap.readRset, Heap.readSlice] at hlen
      exact Nat.le_of_eq hlen


/-- The example spec is valid in the example heap. -/
theorem exampleSpec_valid : exampleSpec.valid exampleHeap := by
  refine ⟨fun a ha => ?_, fun p hp => ?_⟩
  · cases ha; decide
  · cases hp
    exact ⟨by decide, by decide, by decide⟩

/-- The witness of C8: the copy of the example spec has the label `a = b` and
the nodes `n1`, `n2` of the source. -/
theorem copy_structurally_equal_witness :
    exampleSpec.valid exampleHeap ∧
    (VolumeSpec.Copy exampleHeap exampleSpec).1.scalars = 4096 ∧
    (VolumeSpec.Copy exampleHeap exampleSpec).1.replicaSet
      (VolumeSpec.Copy exampleHeap exampleSpec).2 = some ⟨["n1", "n2"]⟩ ∧
    ((VolumeSpec.Copy exampleHeap exampleSpec).1.labels
      (VolumeSpec.Copy exampleHeap exampleSpec).2).map (fun m => m.lookup "a") =
        some (some "b") := by
  have t := copy_structurally_equal exampleHeap exampleSpec exampleSpec_valid
  refine ⟨exampleSpec_valid, t.1, t.2.2.2.2.2.trans (by decide), by decide⟩

/-- C9: the copy shares neither the label map nor the nodes array with the
source.  After `c := s.Copy()`, whatever sequence of insertions, updates and
deletions in `c.VolumeLabels` and of element writes to `c.ReplicaSet.Nodes` is
run, `s.VolumeLabels` and `s.ReplicaSet.Nodes` read as they did before the
copy; and whatever such sequence is run through `s`, `c.VolumeLabels` and
`c.ReplicaSet.Nodes` read as they did right after the copy. -/
theorem copy_no_aliasing {σ : Type} (h : Heap) (s : VolumeSpec σ) (hv : s.valid h) :
    (∀ ms h2, (VolumeSpec.Copy h s).1.mutateAll (VolumeSpec.Copy h s).2 ms = some h2 →
      s.labels h2 = s.labels h ∧ s.replicaSet h2 = s.replicaSet h) ∧
    (∀ ms h2, s.mutateAll (VolumeSpec.Copy h s).2 ms = some h2 →
      (VolumeSpec.Copy h s).1.labels h2 =
        (VolumeSpec.Copy h s).1.labels (VolumeSpec.Copy h s).2 ∧
      (VolumeSpec.Copy h s).1.replicaSet h2 =
        (VolumeSpec.Copy h s).1.replicaSet (VolumeSpec.Copy h s).2) := by
  have hsep := copy_separated h s hv
  have hsrc := copy_preserves_source h s hv
  constructor
  · intro ms h2 hm
    have := mutateAll_invisible _ s ms _ h2 (separated_symm _ _ _ hsep) hm
    exact ⟨this.1.trans hsrc.1, this.2.trans hsrc.2⟩
  · intro ms h2 hm
    exact mutateAll_invisible s _ ms _ h2 hsep hm

/-- The witness of C9: with `s.VolumeLabels = {"a": "b"}`, after
`c := s.Copy()` and `c.VolumeLabels["a"] = "c"` the copy reads `c` under `a`
and the source still reads `b`; and after `c.ReplicaSet.Nodes[0] = "x"` the
source still has the nodes `n1`, `n2`. -/
theorem copy_no_aliasing_witness :
    exampleSpec.valid exampleHeap ∧
    ∃ h2, (VolumeSpec.Copy exampleHeap exampleSpec).1.mutateAll
        (VolumeSpec.Copy exampleHeap exampleSpec).2
        [.setLabel "a" "c", .setNode 0 "x"] = some h2 ∧
      ((VolumeSpec.Copy exampleHeap exampleSpec).1.labels h2).map (fun m => m.lookup "a") =
        some (some "c") ∧
      (VolumeSpec.Copy exampleHeap exampleSpec).1.replicaSet h2 = some ⟨["x", "n2"]⟩ ∧
      (exampleSpec.labels h2).map (fun m => m.lookup "a") = some (some "b") ∧
      exampleSpec.replicaSet h2 = some ⟨["n1", "n2"]⟩ := by
  refine ⟨exampleSpec_valid, ?_⟩
  have hs : ((VolumeSpec.Copy exampleHeap exampleSpec).1.mutateAll
      (VolumeSpec.Copy exampleHeap exampleSpec).2
      [.setLabel "a" "c", .setNode 0 "x"]).isSome = true := by decide
  cases hm : (VolumeSpec.Copy exampleHeap exampleSpec).1.mutateAll
      (VolumeSpec.Copy exampleHeap exampleSpec).2 [.setLabel "a" "c", .setNode 0 "x"] with
  | none =>
    rw [hm] at hs
    exact absurd hs (by simp)
  | some h2 =>
    have t := (copy_no_aliasing exampleHeap exampleSpec exampleSpec_valid).1 _ h2 hm
    have hc : (((VolumeSpec.Copy exampleHeap exampleSpec).1.mutateAll
        (VolumeSpec.Copy exampleHeap exampleSpec).2
        [.setLabel "a" "c", .setNode 0 "x"]).bind fun h2 =>
          ((VolumeSpec.Copy exampleHeap exampleSpec).1.labels h2).map
            fun m => m.lookup "a") = some (some "c") := by decide
    have hn : (((VolumeSpec.Copy exampleHeap exampleSpec).1.mutateAll
        (VolumeSpec.Copy exampleHeap exampleSpec).2
        [.setLabel "a" "c", .setNode 0 "x"]).bind fun h2 =>
          (VolumeSpec.Copy exampleHeap exampleSpec).1.replicaSet h2) =
            some ⟨["x", "n2"]⟩ := by decide
    rw [hm] at hc hn
    refine ⟨h2, rfl, hc, hn, ?_, ?_⟩
    · rw [t.1]; decide
    · rw [t.2]; decide

/-! ## The alert facade -/

/-- C10: each of `Alarm`, `Notify` and `Warn` makes exactly one call on the
store, a `Raise`, whatever `Raise` returns, and no `Clear`.  The alert passed
carries the call's `alertType`, `resourceType`, `resourceID` and `msg`, the
severity of the method and `Id = 0`, and the store is left in the state that
single `Raise` produced. -/
theorem severity_methods_raise_once {σ : Type} (ai : alertInstance σ) (w : World σ)
    (alertType : Int) (msg : String) (resourceType : ResourceType) (resourceID : String) :
    ((ai.Alarm w alertType msg resourceType resourceID).2.calls =
        w.calls ++ [StoreCall.raise
          ⟨alertType, resourceType, resourceID, .SEVERITY_TYPE_ALARM, msg, 0⟩] ∧
      (ai.Alarm w alertType msg resourceType resourceID).2.store =
        (ai.kva.Raise w.store
          ⟨alertType, resourceType, resourceID, .SEVERITY_TYPE_ALARM, msg, 0⟩).1) ∧
    ((ai.Notify w alertType msg resourceType resourceID).2.calls =
        w.calls ++ [StoreCall.raise
          ⟨alertType, resourceType, resourceID, .SEVERITY_TYPE_NOTIFY, msg, 0⟩] ∧
      (ai.Notify w alertType msg resourceType resourceID).2.store =
        (ai.kva.Raise w.store
          ⟨alertType, resourceType, resourceID, .SEVERITY_TYPE_NOTIFY, msg, 0⟩).1) ∧
    ((ai.Warn w alertType msg resourceType resourceID).2.calls =
        w.calls ++ [StoreCall.raise
          ⟨alertType, resourceType, resourceID, .SEVERITY_TYPE_WARNING, msg, 0⟩] ∧
      (ai.Warn w alertType msg resourceType resourceID).2.store =
        (ai.kva.Raise w.store
          ⟨alertType, resourceType, resourceID, .SEVERITY_TYPE_WARNING, msg, 0⟩).1) :=
  ⟨⟨rfl, rfl⟩, ⟨rfl, rfl⟩, ⟨rfl, rfl⟩⟩

/-- C11: each of `Alarm`, `Notify` and `Warn` returns the pair `(i, e)` where
`e` is the error the store's `Raise` returned, as it is, and `i` is the `Id`
of the alert as the store left it.  So `i` is the identity the store assigned,
and it is `0`, the value the facade put there, when the store, called in the
state at hand, leaves the `Id` of an alert as it got it, also when `Raise`
returned an error. -/
theorem severity_methods_return {σ : Type} (ai : alertInstance σ) (w : World σ)
    (alertType : Int) (msg : String) (resourceType : ResourceType) (resourceID : String) :
    ((ai.Alarm w alertType msg resourceType resourceID).1 =
      ((ai.kva.Raise w.store
          ⟨alertType, resourceType, resourceID, .SEVERITY_TYPE_ALARM, msg, 0⟩).2.1.Id,
        (ai.kva.Raise w.store
          ⟨alertType, resourceType, resourceID, .SEVERITY_TYPE_ALARM, msg, 0⟩).2.2)) ∧
    ((ai.Notify w alertType msg resourceType resourceID).1 =
      ((ai.kva.Raise w.store
          ⟨alertType, resourceType, resourceID, .SEVERITY_TYPE_NOTIFY, msg, 0⟩).2.1.Id,
        (ai.kva.Raise w.store
          ⟨alertType, resourceType, resourceID, .SEVERITY_TYPE_NOTIFY, msg, 0⟩).2.2)) ∧
    ((ai.Warn w alertType msg resourceType resourceID).1 =
      ((ai.kva.Raise w.store
          ⟨alertType, resourceType, resourceID, .SEVERITY_TYPE_WARNING, msg, 0⟩).2.1.Id,
        (ai.kva.Raise w.store
          ⟨alertType, resourceType, resourceID, .SEVERITY_TYPE_WARNING, msg, 0⟩).2.2)) ∧
    (∀ severity, (∀ alert, (ai.kva.Raise w.store alert).2.1.Id = alert.Id) →
      (ai.raiseAlert w alertType msg resourceType resourceID severity).1.1.Id = 0 ∧
      (ai.Alarm w alertType msg resourceType resourceID).1.1 = 0 ∧
      (ai.Notify w alertType msg resourceType resourceID).1.1 = 0 ∧
      (ai.Warn w alertType msg resourceType resourceID).1.1 = 0) := by
  refine ⟨rfl, rfl, rfl, ?_⟩
  intro severity hid
  exact ⟨hid _, hid _, hid _, hid _⟩

/-- The witness of C11: a store that rejects the alert without touching it
makes `Alarm` return `0` and the store's error; a store that assigns the id
`42` and succeeds makes `Warn` return `42` and no error. -/
theorem severity_methods_return_witness :
    (alertInstance.Alarm ⟨"n1", "c1", "v1", rejectingStore⟩ ⟨(), []⟩ 7 "disk full" 2
      "vol1").1 = (0, some "store unavailable") ∧
    (alertInstance.Warn ⟨"n1", "c1", "v1", numberingStore⟩ ⟨41, []⟩ 7 "disk full" 2
      "vol1").1 = (42, none) := by
  have t1 := severity_methods_return ⟨"n1", "c1", "v1", rejectingStore⟩ ⟨(), []⟩ 7
    "disk full" 2 "vol1"
  have t2 := severity_methods_return ⟨"n1", "c1", "v1", numberingStore⟩ ⟨41, []⟩ 7
    "disk full" 2 "vol1"
  refine ⟨Prod.ext (t1.2.2.2 .SEVERITY_TYPE_ALARM (fun _ => rfl)).2.1 ?_,
    t2.2.2.1.trans ?_⟩
  · rw [t1.1]
    rfl
  · rfl

/-- C12: the facade's `Clear` makes exactly one call on the store, a `Clear`
with the same `resourceType` and `alertID`, and no `Raise`; it returns what the
store returned, `nil` exactly when the store returned `nil`, with no check of
its own in between. -/
theorem clear_delegates {σ : Type} (ai : alertInstance σ) (w : World σ)
    (resourceType : ResourceType) (alertID : Int) :
    (ai.Clear w resourceType alertID).2.calls =
      w.calls ++ [StoreCall.clear resourceType alertID] ∧
    (ai.Clear w resourceType alertID).1 = (ai.kva.Clear w.store resourceType alertID).2 ∧
    (ai.Clear w resourceType alertID).2.store =
      (ai.kva.Clear w.store resourceType alertID).1 ∧
    ((ai.Clear w resourceType alertID).1 = none ↔
      (ai.kva.Clear w.store resourceType alertID).2 = none) :=
  ⟨rfl, rfl, rfl, Iff.rfl⟩

/-- The witness of C12: the error of a rejecting store comes back as it is, a
store that succeeds gives `nil`, and in both cases the one call recorded is the
`Clear` with the arguments given. -/
theorem clear_delegates_witness :
    (alertInstance.Clear ⟨"n1", "c1", "v1", rejectingStore⟩ ⟨(), []⟩ 2 42).1 =
      some "store unavailable" ∧
    (alertInstance.Clear ⟨"n1", "c1", "v1", numberingStore⟩ ⟨41, []⟩ 2 42).1 = none ∧
    (alertInstance.Clear ⟨"n1", "c1", "v1", numberingStore⟩ ⟨41, []⟩ 2 42).2.calls =
      [StoreCall.clear 2 42] :=
  ⟨(clear_delegates ⟨"n1", "c1", "v1", rejectingStore⟩ ⟨(), []⟩ 2 42).2.1,
   (clear_delegates ⟨"n1", "c1", "v1", numberingStore⟩ ⟨41, []⟩ 2 42).2.1,
   (clear_delegates ⟨"n1", "c1", "v1", numberingStore⟩ ⟨41, []⟩ 2 42).1⟩

/-- C18: the deprecated `Alert(name, msg)` is a no-op that succeeds.  For every
name and message and every facade, bound or not, it returns a `nil` error,
makes no call on the store, and leaves the store and the facade, so its
`NodeID`, `ClusterID`, `Version` and store binding, as they were. -/
theorem alert_shim_noop {σ : Type} (ai : Option (alertInstance σ)) (w : World σ)
    (name msg : String) :
    (alertInstance.Alert ai w name msg).1 = none ∧
    (alertInstance.Alert ai w name msg).2.2.calls = w.calls ∧
    (alertInstance.Alert ai w name msg).2.2.store = w.store ∧
    (alertInstance.Alert ai w name msg).2.1 = ai ∧
    (alertInstance.Alert ai w name msg).2.1.map (fun a => a.NodeID) =
      ai.map (fun a => a.NodeID) ∧
    (alertInstance.Alert ai w name msg).2.1.map (fun a => a.ClusterID) =
      ai.map (fun a => a.ClusterID) ∧
    (alertInstance.Alert ai w name msg).2.1.map (fun a => a.Version) =
      ai.map (fun a => a.Version) :=
  ⟨rfl, rfl, rfl, rfl, rfl, rfl, rfl⟩

/-! ## Strings for VolumeSpec -/

/-- C19: the key constants are the reserved vocabulary, letter for letter, and
the 31 keys are pairwise distinct. -/
theorem specKeys_vocabulary :
    Name = "name" ∧ SpecNodes = "nodes" ∧ SpecParent = "parent" ∧
    SpecEphemeral = "ephemeral" ∧ SpecShared = "shared" ∧ SpecJournal = "journal" ∧
    SpecNfs = "nfs" ∧ SpecCascaded = "cascaded" ∧ SpecSticky = "sticky" ∧
    SpecSecure = "secure" ∧ SpecCompressed = "compressed" ∧ SpecSize = "size" ∧
    SpecScale = "scale" ∧ SpecFilesystem = "fs" ∧ SpecBlockSize = "block_size" ∧
    SpecHaLevel = "repl" ∧ SpecPriority = "io_priority" ∧
    SpecSnapshotInterval = "snap_interval" ∧ SpecSnapshotSchedule = "snap_schedule" ∧
    SpecAggregationLevel = "aggregation_level" ∧ SpecDedupe = "dedupe" ∧
    SpecPassphrase = "secret_key" ∧ SpecGroup = "group" ∧ SpecGroupEnforce = "fg" ∧
    SpecZones = "zones" ∧ SpecRacks = "racks" ∧ SpecRack = "rack" ∧
    SpecRegions = "regions" ∧ SpecLabels = "labels" ∧ SpecPriorityAlias = "priority_io" ∧
    SpecIoProfile = "io_profile" ∧
    specKeys.length = 31 ∧ specKeys.Nodup := by
  refine ⟨rfl, rfl, rfl, rfl, rfl, rfl, rfl, rfl, rfl, rfl, rfl, rfl, rfl, rfl, rfl, rfl, rfl,
    rfl, rfl, rfl, rfl, rfl, rfl, rfl, rfl, rfl, rfl, rfl, rfl, rfl, rfl, rfl, ?_⟩
  decide

end OpenStorage
